import Mathlib

/-!
# go-xray: log formatter and X-Ray tracing middleware

A shallow embedding of `src/xray.go` and `src/loggers.go`.

* Go strings are Lean strings (sequences of code points; a Go string holding
  valid UTF-8 text).  The separators the code splits on (`;`, `=`, `,`, `/`)
  are single ASCII bytes, so they are taken as characters.
* Go `int` values (status codes, sizes, line numbers) are `Int`; the one
  subtraction of the program, on `int64`, wraps modulo `2^64`.
* A Go `map` that the code iterates over is a list of pairs in iteration order.
* A run-time panic is an explicit result (`Result.panic`).
* The X-Ray segment, the gin response writer and the logger are external
  objects: their state is passed explicitly, and a segment remembers the
  sequence of operations performed on it (`Segment.ops`).
-/

namespace MidGo

/-! ## Go standard library -/

/-- Outcome of a Go call that may panic. -/
inductive Result (α : Type) where
  | ok (val : α)
  | panic (msg : String)
  deriving DecidableEq

/-- Process environment as seen through `os.Getenv`: the empty string for an
unset variable. -/
abbrev Env := String → String

/-- Predicate `unicode.IsSpace`: the Unicode White_Space code points. -/
def isSpace (c : Char) : Bool :=
  c = '\t' || c = '\n' || c = Char.ofNat 0x0B || c = Char.ofNat 0x0C || c = '\r' || c = ' ' ||
  c = Char.ofNat 0x85 || c = Char.ofNat 0xA0 || c = Char.ofNat 0x1680 ||
  (0x2000 ≤ c.toNat && c.toNat ≤ 0x200A) ||
  c = Char.ofNat 0x2028 || c = Char.ofNat 0x2029 || c = Char.ofNat 0x202F ||
  c = Char.ofNat 0x205F || c = Char.ofNat 0x3000

/-- Function `strings.TrimSpace`: leading and trailing white space removed. -/
def TrimSpace (s : String) : String :=
  ⟨(s.data.dropWhile isSpace).rdropWhile isSpace⟩

/-- Function `strings.IndexByte`: position of the first `sep`, `none` for Go's -1. -/
def indexByte (sep : Char) : List Char → Option Nat
  | [] => none
  | c :: cs => if c = sep then some 0 else (indexByte sep cs).map (· + 1)

/-- Function `strings.LastIndexByte`: position of the last `sep`, `none` for Go's -1. -/
def lastIndexByte (sep : Char) : List Char → Option Nat
  | [] => none
  | c :: cs =>
    match lastIndexByte sep cs with
    | some i => some (i + 1)
    | none => if c = sep then some 0 else none

/-- The cutting loop of `strings.genSplit`: while fewer than `n` pieces have
been cut and `sep` still occurs, cut `s[:m]` off and continue with
`s[m+1:]`; the remainder is the last piece. -/
def genSplit (sep : Char) : Nat → List Char → List (List Char)
  | 0, s => [s]
  | n + 1, s =>
    match indexByte sep s with
    | none => [s]
    | some m => s.take m :: genSplit sep n (s.drop (m + 1))

/-- Function `strings.SplitN(s, sep, n)` for a one-byte separator and `n ≥ 0`:
no piece for `n = 0`, otherwise at most `n` pieces (`n` is first capped at
`len(s) + 1`), the last one holding the unsplit remainder. -/
def SplitN (s : String) (sep : Char) (n : Nat) : List String :=
  if n = 0 then []
  else (genSplit sep (min n (s.data.length + 1) - 1) s.data).map String.mk

/-- Function `strings.Split(s, sep)` for a one-byte separator: `SplitN` with
`n = Count(s, sep) + 1`, i.e. cut at every occurrence. -/
def Split (s : String) (sep : Char) : List String :=
  (genSplit sep (s.data.count sep) s.data).map String.mk

/-- Function `strconv.Itoa`. -/
def Itoa (n : Int) : String := toString n

/-- Token bytes of a header field name (`textproto.validHeaderFieldByte`). -/
def validHeaderFieldByte (c : Char) : Bool :=
  c.isAlphanum || "!#$%&*+-.^_|~".data.contains c || c = Char.ofNat 39 || c = Char.ofNat 96

/-- Letter-case loop of `textproto.canonicalMIMEHeaderKey`: upper case at the
start and after a hyphen, lower case elsewhere. -/
def canonicalLoop : Bool → List Char → List Char
  | _, [] => []
  | upper, c :: cs =>
    let d := if upper then c.toUpper else c.toLower
    d :: canonicalLoop (d = '-') cs

/-- Function `textproto.CanonicalMIMEHeaderKey`: a name containing a byte
that is not a token byte is returned unchanged. -/
def CanonicalMIMEHeaderKey (s : String) : String :=
  if s.data.all validHeaderFieldByte then ⟨canonicalLoop true s.data⟩ else s

/-- Type `http.Header`: canonical field name to the list of its values. -/
abbrev Header := List (String × List String)

/-- Method `http.Header.Get`: the first value stored under the canonical form
of `key`, the empty string when there is none. -/
def Header.Get (h : Header) (key : String) : String :=
  match h.lookup (CanonicalMIMEHeaderKey key) with
  | some (v :: _) => v
  | _ => ""

/-- Whether the header map has an entry for `key` at all (Go: `_, ok := h[k]`). -/
def Header.Has (h : Header) (key : String) : Bool :=
  (h.lookup (CanonicalMIMEHeaderKey key)).isSome

/-- Method `http.Header.Set`: replace the values stored under `key`. -/
def Header.Set (h : Header) (key value : String) : Header :=
  (CanonicalMIMEHeaderKey key, [value]) ::
    h.filter (fun p => p.1 != CanonicalMIMEHeaderKey key)

/-- A Go `map[string]string`: at most one pair per key. -/
structure StrMap where
  entries : List (String × String)
  deriving DecidableEq

/-- The empty map `map[string]string{}`. -/
def StrMap.empty : StrMap := ⟨[]⟩

/-- Assignment `m[k] = v`. -/
def StrMap.set (m : StrMap) (k v : String) : StrMap :=
  ⟨(k, v) :: m.entries.filter (fun p => p.1 != k)⟩

/-- Two-value lookup `v, ok := m[k]`. -/
def StrMap.find? (m : StrMap) (k : String) : Option String :=
  m.entries.lookup k

/-- Expression `m[k]`: the zero value `""` for a missing key. -/
def StrMap.get (m : StrMap) (k : String) : String :=
  (m.find? k).getD ""

/-- The keys of the map. -/
def StrMap.keys (m : StrMap) : List String :=
  m.entries.map Prod.fst

/-- The part of `*http.Request` that the middleware reads. -/
structure Request where
  Method : String
  URL : String
  Host : String
  RemoteAddr : String
  Header : Header

/-- Method `Request.UserAgent`. -/
def Request.UserAgent (r : Request) : String :=
  r.Header.Get "User-Agent"

/-! ## The X-Ray segment -/

/-- One operation performed on a segment: a method call, a field assignment
or a field read. -/
inductive SegOp where
  | Lock
  | Unlock
  | Write (field : String)
  | Read (field : String)
  | AddMetadata (key value : String)
  | Close
  deriving DecidableEq

/-- Sub-record `seg.GetHTTP().GetRequest()`. -/
structure RequestData where
  Method : String
  URL : String
  XForwardedFor : Bool
  ClientIP : String
  UserAgent : String
  deriving DecidableEq

/-- Sub-record `seg.GetHTTP().GetResponse()`. -/
structure ResponseData where
  Status : Int
  ContentLength : Int
  deriving DecidableEq

/-- The fields of `xray.Segment` that the code reads or writes, and the
history `ops` of the operations performed on the segment, oldest first. -/
structure Segment where
  TraceID : String
  ParentID : String
  Name : String
  RequestWasTraced : Bool
  Sampled : Bool
  Error : Bool
  Throttle : Bool
  Fault : Bool
  HTTPRequest : RequestData
  HTTPResponse : ResponseData
  Metadata : List (String × String)
  ops : List SegOp
  deriving DecidableEq

/-- Append an operation to the history. -/
def Segment.op (seg : Segment) (o : SegOp) : Segment :=
  { seg with ops := seg.ops ++ [o] }

/-- Method `seg.Lock()`. -/
def Segment.Lock (seg : Segment) : Segment := seg.op .Lock

/-- Method `seg.Unlock()`. -/
def Segment.Unlock (seg : Segment) : Segment := seg.op .Unlock

/-- Method `seg.Close(nil)`: the segment is ended and handed to the emitter. -/
def Segment.Close (seg : Segment) : Segment := seg.op .Close

/-- Method `seg.AddMetadata(key, value)`.  Whether the tracing client accepts
the value is its own business: `fails` is its verdict; on success the pair is
stored, on failure the error is returned and nothing is stored. -/
def Segment.AddMetadata (seg : Segment) (key value : String) (fails : Bool) :
    Segment × Option String :=
  let seg := seg.op (.AddMetadata key value)
  if fails then (seg, some "failed to add metadata")
  else ({ seg with Metadata := (key, value) :: seg.Metadata.filter (fun p => p.1 != key) }, none)

/-- Number of times the segment has been closed. -/
def Segment.closeCount (seg : Segment) : Nat := seg.ops.count .Close

/-! ## `src/xray.go` -/

/-- The state of the `gin.ResponseWriter` of a request: status code, number of
body bytes written, response header, and the slices handed to `Write`. -/
structure GinResponseWriter where
  status : Int
  size : Int
  header : Header
  written : List String

/-- Type `responseBodyWriter`: the embedded `gin.ResponseWriter` and the
capture buffer `body`. -/
structure responseBodyWriter where
  ResponseWriter : GinResponseWriter
  body : String

/-- Method `responseBodyWriter.Write`: `r.body.Write(b)` and then
`return r.ResponseWriter.Write(b)`.  The embedded writer's `Write` is
external: `inner` gives its new state with the count and error it returns. -/
def responseBodyWriter.Write
    (inner : GinResponseWriter → String → GinResponseWriter × Int × Option String)
    (r : responseBodyWriter) (b : String) : responseBodyWriter × Int × Option String :=
  let body := r.body ++ b
  let res := inner r.ResponseWriter b
  ({ ResponseWriter := res.1, body := body }, res.2.1, res.2.2)

/-- Function `btoi`. -/
def btoi (b : Bool) : Int :=
  if b then 1 else 0

/-- Function `parseHeaders`. -/
def parseHeaders (env : Env) (h : Header) : StrMap :=
  let s := h.Get (env "XRAY_TRACE")
  (Split s ';').foldl
    (fun m c =>
      let p := SplitN c '=' 2
      let k := TrimSpace (p.getD 0 "")
      let v := if p.length > 1 then TrimSpace (p.getD 1 "") else ""
      m.set k v)
    StrMap.empty

/-- Function `hasXForwardedFor`. -/
def hasXForwardedFor (r : Request) : Bool :=
  r.Header.Get "X-Forwarded-For" != ""

/-- Function `clientIP`. -/
def clientIP (r : Request) : String :=
  let forwardedFor := r.Header.Get "X-Forwarded-For"
  if forwardedFor != "" then
    TrimSpace ((Split forwardedFor ',').getD 0 "")
  else
    r.RemoteAddr

/-- Function `createTraceHeader`: the header value returned and the segment
as the function leaves it. -/
def createTraceHeader (env : Env) (r : Request) (seg : Segment) : String × Segment :=
  let trace := parseHeaders env r.Header
  let seg :=
    if trace.get "Root" != "" then
      let seg := { seg with TraceID := trace.get "Root" }.op (.Write "TraceID")
      { seg with RequestWasTraced := true }.op (.Write "RequestWasTraced")
    else seg
  let seg :=
    if trace.get "Parent" != "" then
      { seg with ParentID := trace.get "Parent" }.op (.Write "ParentID")
    else seg
  let respHeader := ""
  let respHeader := respHeader ++ "Root="
  let respHeader := respHeader ++ seg.TraceID
  let seg := seg.op (.Read "TraceID")
  let seg := { seg with Sampled := trace.get "Sampled" != "0" }.op (.Write "Sampled")
  if trace.get "Sampled" == "?" then
    let respHeader := respHeader ++ ";Sampled="
    let respHeader := respHeader ++ Itoa (btoi seg.Sampled)
    (respHeader, seg.op (.Read "Sampled"))
  else
    (respHeader, seg)

/-- Function `captureResponseData`; of the gin context it reads the writer's
`Status()` and `Size()`. -/
def captureResponseData (w : responseBodyWriter) (seg : Segment) : Segment :=
  let respStatus := w.ResponseWriter.status
  let seg := seg.Lock
  let seg := { seg with HTTPResponse := { seg.HTTPResponse with Status := respStatus } }.op
    (.Write "HTTP.Response.Status")
  let seg := { seg with HTTPResponse :=
    { seg.HTTPResponse with ContentLength := w.ResponseWriter.size } }.op
    (.Write "HTTP.Response.ContentLength")
  let seg :=
    if respStatus ≥ 400 && respStatus < 500 then { seg with Error := true }.op (.Write "Error")
    else seg
  let seg :=
    if respStatus == 429 then { seg with Throttle := true }.op (.Write "Throttle")
    else seg
  let seg :=
    if respStatus ≥ 500 && respStatus < 600 then { seg with Fault := true }.op (.Write "Fault")
    else seg
  seg.Unlock

/-- The fields of `*http.Response` that the round-tripper reads. -/
structure Response where
  Status : String
  StatusCode : Int
  ContentLength : Int
  deriving DecidableEq

/-- Function `captureResponseDataNet`; the response pointer may be nil, and
reading `c.StatusCode` through a nil pointer panics before anything else is
done. -/
def captureResponseDataNet (c : Option Response) (seg : Segment) : Result Segment :=
  match c with
  | none => .panic "invalid memory address or nil pointer dereference"
  | some c =>
    let respStatus := c.StatusCode
    let seg := seg.Lock
    let seg := { seg with HTTPResponse := { seg.HTTPResponse with Status := respStatus } }.op
      (.Write "HTTP.Response.Status")
    let seg := { seg with HTTPResponse :=
      { seg.HTTPResponse with ContentLength := c.ContentLength } }.op
      (.Write "HTTP.Response.ContentLength")
    let seg :=
      if respStatus ≥ 400 && respStatus < 500 then { seg with Error := true }.op (.Write "Error")
      else seg
    let seg :=
      if respStatus == 429 then { seg with Throttle := true }.op (.Write "Throttle")
      else seg
    let seg :=
      if respStatus ≥ 500 && respStatus < 600 then { seg with Fault := true }.op (.Write "Fault")
      else seg
    .ok seg.Unlock

/-- One call on the logger: the level and the arguments, in order.  Values
whose rendering is the logger's business are named, not rendered. -/
inductive LogArg where
  | text (s : String)
  | startTime
  | endTime
  | metadata (m : List (String × String))
  deriving DecidableEq

/-- A logging call `log.Info(...)`, `log.Error(...)` or `log.Debug(...)`. -/
structure LogCall where
  level : String
  args : List LogArg
  deriving DecidableEq

/-- Function `captureRequestDataNet`. -/
def captureRequestDataNet (r : Request) (seg : Segment) : Segment :=
  let seg := seg.Lock
  let seg := { seg with HTTPRequest := { seg.HTTPRequest with Method := r.Method } }.op
    (.Write "HTTP.Request.Method")
  let seg := { seg with HTTPRequest := { seg.HTTPRequest with URL := r.URL } }.op
    (.Write "HTTP.Request.URL")
  let seg := { seg with HTTPRequest :=
    { seg.HTTPRequest with XForwardedFor := hasXForwardedFor r } }.op
    (.Write "HTTP.Request.XForwardedFor")
  let seg := { seg with HTTPRequest := { seg.HTTPRequest with ClientIP := clientIP r } }.op
    (.Write "HTTP.Request.ClientIP")
  let seg := { seg with HTTPRequest := { seg.HTTPRequest with UserAgent := r.UserAgent } }.op
    (.Write "HTTP.Request.UserAgent")
  seg.Unlock

/-- The gin context of a request once the writer has been wrapped. -/
structure GinContext where
  Request : Request
  Writer : responseBodyWriter

/-- Function `captureRequestData`: the context with the trace header set on
the response, and the segment. -/
def captureRequestData (env : Env) (c : GinContext) (seg : Segment) : GinContext × Segment :=
  let r := c.Request
  let seg := seg.Lock
  let seg := { seg with HTTPRequest := { seg.HTTPRequest with Method := r.Method } }.op
    (.Write "HTTP.Request.Method")
  let seg := { seg with HTTPRequest := { seg.HTTPRequest with URL := r.URL } }.op
    (.Write "HTTP.Request.URL")
  let seg := { seg with HTTPRequest :=
    { seg.HTTPRequest with XForwardedFor := hasXForwardedFor r } }.op
    (.Write "HTTP.Request.XForwardedFor")
  let seg := { seg with HTTPRequest := { seg.HTTPRequest with ClientIP := clientIP r } }.op
    (.Write "HTTP.Request.ClientIP")
  let seg := { seg with HTTPRequest := { seg.HTTPRequest with UserAgent := r.UserAgent } }.op
    (.Write "HTTP.Request.UserAgent")
  let th := createTraceHeader env r seg
  let inner := c.Writer.ResponseWriter
  let inner := { inner with header := inner.header.Set (env "XRAY_TRACE") th.1 }
  ({ c with Writer := { c.Writer with ResponseWriter := inner } }, th.2.Unlock)

/-- How a call of `LoggingRoundTripper.RoundTrip` ends: it returns `(res, e)`
to its caller, or it panics; either way the segment and the logger calls
made so far are kept. -/
inductive RoundTripOutcome where
  | returned (res : Option Response) (e : Option String) (seg : Segment) (log : List LogCall)
  | panicked (msg : String) (seg : Segment) (log : List LogCall)
  deriving DecidableEq

/-- Method `LoggingRoundTripper.RoundTrip`.  `R` is the inner round-tripper
`lrt.R` (a response pointer, possibly nil, and an error, possibly nil) and
`seg` is `lrt.Seg`.  The deferred `Close` is registered on the last line
before `return`, so it runs only when that line is reached. -/
def RoundTrip (R : Request → Option Response × Option String) (seg : Segment)
    (req : Request) : RoundTripOutcome :=
  let seg := seg.op (.Read "TraceID")
  let log := [LogCall.mk "info" [.text "Sending request to ", .text req.URL]]
  let seg := captureRequestDataNet req seg
  let (res, e) := R req
  match captureResponseDataNet res seg with
  | .panic msg => .panicked msg seg log
  | .ok seg =>
    match e, res with
    | some err, _ =>
      let log := log ++ [LogCall.mk "error" [.text "Error: ", .text err]]
      .returned res e seg.Close log
    | none, some r =>
      let log := log ++ [LogCall.mk "error" [.text "Received response ", .text r.Status]]
      .returned res e seg.Close log
    | none, none => .panicked "invalid memory address or nil pointer dereference" seg log

/-- What the handler returned by `XRayMiddleware` leaves behind. -/
structure HandlerResult where
  c : GinContext
  seg : Segment
  log : List LogCall

/-- The handler returned by `XRayMiddleware(sn)`, for a request whose
downstream stage returns.  External parts are parameters: `sn` is the segment
namer (nil or its `Name` method), `NewSegmentFromHeader` gives the segment for
a name, a request and the raw trace header, `next` is what `c.Next()` does to
the context, and `addFails` tells whether `seg.AddMetadata` reports an error.
`r` and `cw` are the request and the writer the handler is entered with. -/
def XRayMiddleware (env : Env) (sn : Option (String → String))
    (NewSegmentFromHeader : String → Request → String → Segment)
    (next : GinContext → GinContext) (addFails : Bool)
    (r : Request) (cw : GinResponseWriter) : HandlerResult :=
  let w : responseBodyWriter := { body := "", ResponseWriter := cw }
  let c : GinContext := { Request := r, Writer := w }
  let name :=
    match sn with
    | some namer => namer c.Request.Host
    | none => env "XRAY_NAME"
  let traceId := c.Request.Header.Get (env "XRAY_TRACE")
  let seg := NewSegmentFromHeader name c.Request traceId
  let seg := seg.op (.Read "TraceID")
  let log := [LogCall.mk "info" [.text (env "XRAY_TRACE"), .text ": ", .text traceId]]
  let (c, seg) := captureRequestData env c seg
  let c := next c
  let seg := captureResponseData c.Writer seg
  let (seg, err) := seg.AddMetadata "response" c.Writer.body addFails
  let log :=
    match err with
    | some _ => log ++ [LogCall.mk "error" [.text "Error adding metadata to segment"]]
    | none => log
  let log := log ++ [LogCall.mk "info" [.text "Trace ID:", .text seg.TraceID]]
  let seg := seg.op (.Read "TraceID")
  let log := log ++ [LogCall.mk "info" [.text "Segment Name:", .text seg.Name]]
  let seg := seg.op (.Read "Name")
  let log := log ++ [LogCall.mk "debug" [.text "Start Time:", .startTime]]
  let seg := seg.op (.Read "StartTime")
  let log := log ++ [LogCall.mk "debug" [.text "End Time:", .endTime]]
  let seg := seg.op (.Read "EndTime")
  let log := log ++ [LogCall.mk "debug" [.text "Metadata:", .metadata seg.Metadata]]
  let seg := seg.op (.Read "Metadata")
  let seg := seg.Close
  { c := c, seg := seg, log := log }

/-! ## `src/loggers.go` -/

/-- Method `logrus.Level.String` on the `uint32` level. -/
def LevelString (level : Nat) : String :=
  match level with
  | 0 => "panic"
  | 1 => "fatal"
  | 2 => "error"
  | 3 => "warning"
  | 4 => "info"
  | 5 => "debug"
  | 6 => "trace"
  | _ => "unknown"

/-- Function `strings.ToUpper` on ASCII text (the level names). -/
def ToUpper (s : String) : String :=
  ⟨s.data.map Char.toUpper⟩

/-- Function `strings.LastIndex(s, sep)` for a one-byte separator; -1 when
`sep` does not occur. -/
def LastIndex (s : String) (sep : Char) : Int :=
  match lastIndexByte sep s.data with
  | some i => i
  | none => -1

/-- Slice expression `s[i:]` for `0 ≤ i ≤ len(s)`. -/
def sliceFrom (s : String) (i : Int) : String :=
  ⟨s.data.drop i.toNat⟩

/-- A value of a logrus field, of type `interface{}`: a string, an `int64`,
or a value of any other dynamic type, given by the text `fmt.Sprint` prints
for it. -/
inductive Value where
  | str (s : String)
  | int64 (n : Int)
  | other (text : String)
  deriving DecidableEq

/-- Function `fmt.Sprint` of one value. -/
def Sprint : Value → String
  | .str s => s
  | .int64 n => toString n
  | .other text => text

/-- Arithmetic on `int64` wraps around. -/
def wrapInt64 (x : Int) : Int :=
  (x + 2 ^ 63) % 2 ^ 64 - 2 ^ 63

/-- Decimal digits, least significant first, with a dot after every third
digit that is followed by another one. -/
def groupDigits : List Char → List Char
  | a :: b :: c :: d :: rest => a :: b :: c :: '.' :: groupDigits (d :: rest)
  | ds => ds

/-- Printer `message.NewPrinter(language.Indonesian).Sprintf("%d", n)`: the
decimal digits of `n` grouped in thousands by the locale's separator, a dot,
after a minus sign for a negative number. -/
def printerSprintf (n : Int) : String :=
  let digits : String := ⟨(groupDigits (toString n.natAbs).data.reverse).reverse⟩
  if n < 0 then "-" ++ digits else digits

/-- Type `runtime.Frame`: the call site. -/
structure Frame where
  File : String
  Line : Int
  deriving DecidableEq

/-- Type `logrus.Entry`: `Buffer` is nil or the content of the buffer the
logger hands over, `Caller` is nil unless the logger reports callers, `Time`
is an instant, `Data` is the field map in the order the loop visits it. -/
structure Entry where
  Buffer : Option String
  Caller : Option Frame
  Time : Int
  Level : Nat
  Data : List (String × Value)
  Message : String

/-- Type `LogFormat`. -/
structure LogFormat where
  TimestampFormat : String

/-- What `Format` takes from the Go runtime: the environment, the reading of
`time.Now().UnixMilli()`, and `time.Time.Format` (instant, then layout). -/
structure Runtime where
  getenv : Env
  nowMilli : Int
  timeFormat : Int → String → String

/-- The four variables `traceId, emailReq, mitraReq, responseTime`. -/
structure FormatVars where
  traceId : String
  emailReq : String
  mitraReq : String
  responseTime : String
  deriving DecidableEq

/-- One round of the loop `for key, value := range entry.Data`; `none` when
the type assertion `value.(int64)` panics. -/
def formatField (now : Int) (vars : FormatVars) (key : String) (value : Value) :
    Option FormatVars :=
  if key == "TRACEID" then
    some { vars with traceId := Sprint value }
  else if key == "EMAILREQ" then
    some { vars with emailReq := Sprint value }
  else if key == "MITRAREQ" then
    some { vars with mitraReq := Sprint value }
  else if key == "STARTTIME" then
    match value with
    | .int64 start =>
      let elapsedTime := wrapInt64 (now - start)
      some { vars with responseTime := " [" ++ printerSprintf elapsedTime ++ " ms]" }
    | _ => none
  else
    some vars

/-- The loop `for key, value := range entry.Data`. -/
def formatFields (now : Int) : List (String × Value) → FormatVars → Option FormatVars
  | [], vars => some vars
  | (key, value) :: rest, vars =>
    match formatField now vars key value with
    | some vars => formatFields now rest vars
    | none => none

/-- Method `LogFormat.Format`: the bytes returned and the error, which is
always nil; a panic when the caller is nil or a start time is not an `int64`. -/
def Format (rt : Runtime) (f : LogFormat) (entry : Entry) : Result (String × Option String) :=
  let b :=
    match entry.Buffer with
    | some buf => buf
    | none => ""
  match entry.Caller with
  | none => .panic "invalid memory address or nil pointer dereference"
  | some caller =>
    let file := caller.File
    let b := b ++ rt.timeFormat entry.Time f.TimestampFormat
    let b := b ++ " "
    let b := b ++ ToUpper (LevelString entry.Level)
    let b := b ++ " "
    let filename := sliceFrom file (LastIndex file '/' + 1) ++ ":" ++ Itoa caller.Line
    let b := b ++ filename
    let b := b ++ " "
    let b := b ++ rt.getenv "APP_NAME"
    let b := b ++ " "
    match formatFields rt.nowMilli entry.Data ⟨"", "", "", ""⟩ with
    | none => .panic "interface conversion: interface is not int64"
    | some vars =>
      let b := if vars.traceId != "" then b ++ (" TRACEID " ++ vars.traceId ++ " ") else b
      let b :=
        if vars.emailReq != "" then
          let b := b ++ ("[" ++ vars.emailReq)
          let b := if vars.mitraReq != "" then b ++ ("|" ++ vars.mitraReq) else b
          b ++ "] "
        else b
      let b := if entry.Message != "" then b ++ ("MSSG:" ++ entry.Message) else b
      let b := if vars.responseTime != "" then b ++ vars.responseTime else b
      let b := b ++ "\n"
      .ok (b, none)

/-- Function `NewTransactionContext`: the fields of the logging context. -/
def NewTransactionContext (now : Int) (traceId : String) : List (String × Value) :=
  [("TRACEID", .str traceId), ("STARTTIME", .int64 now)]

/-! ## Reference definitions, written from the specification -/

/-- The pieces of a text between the occurrences of a separator character,
read off one character at a time. -/
def fieldsOf (sep : Char) : List Char → List (List Char)
  | [] => [[]]
  | c :: cs =>
    if c = sep then [] :: fieldsOf sep cs
    else
      match fieldsOf sep cs with
      | [] => [[c]]
      | piece :: rest => (c :: piece) :: rest

/-- The key of a header segment: the trimmed text before the first `=`. -/
def segmentKey (seg : List Char) : String :=
  TrimSpace ⟨seg.takeWhile (fun c => c != '=')⟩

/-- The value of a header segment: the trimmed text after the first `=`, the
empty string when the segment has no `=`. -/
def segmentValue (seg : List Char) : String :=
  TrimSpace ⟨(seg.dropWhile (fun c => c != '=')).drop 1⟩

/-- The value the specification gives a key in the parsed trace header: that
of the last segment carrying this key, none when no segment carries it. -/
def specLookup (s : String) (k : String) : Option String :=
  ((fieldsOf ';' s.data).reverse.find? (fun seg => segmentKey seg == k)).map segmentValue

/-- The file name of a path: the text after its last slash. -/
def basename (file : String) : String :=
  ⟨(file.data.reverse.takeWhile (fun c => c != '/')).reverse⟩

/-- The text of a field: what `fmt.Sprint` prints for its value, `dflt` when
the record has no such field. -/
def fieldText (data : List (String × Value)) (key : String) (dflt : String) : String :=
  match data.lookup key with
  | some v => Sprint v
  | none => dflt

/-! ## Example data -/

/-- An environment naming the trace header and the application. -/
def exampleEnv : Env := fun k =>
  if k = "XRAY_TRACE" then "x-amzn-trace-id"
  else if k = "APP_NAME" then "app"
  else if k = "XRAY_NAME" then "svc"
  else ""

/-- A header carrying the given trace header value. -/
def traceHeader (v : String) : Header := [("X-Amzn-Trace-Id", [v])]

/-- A segment fresh from the tracing client, with the given trace id. -/
def freshSegment (traceId : String) : Segment :=
  { TraceID := traceId, ParentID := "", Name := "svc", RequestWasTraced := false,
    Sampled := false, Error := false, Throttle := false, Fault := false,
    HTTPRequest := ⟨"", "", false, "", ""⟩, HTTPResponse := ⟨0, 0⟩, Metadata := [], ops := [] }

/-- A runtime whose clock reads 5000 ms and which prints every instant alike. -/
def exampleRuntime : Runtime :=
  ⟨exampleEnv, 5000, fun _ _ => "01/02/2024 10:00:00,000"⟩

/-- The formatter `NewLogging` installs. -/
def exampleFormat : LogFormat := ⟨"02/01/2006 15:04:05,999"⟩

/-- A log record at info level from `/src/app/main.go:42`. -/
def exampleEntry (data : List (String × Value)) (message : String) : Entry :=
  ⟨none, some ⟨"/src/app/main.go", 42⟩, 0, 4, data, message⟩

/-! ## The parts of a formatted line, written from the specification -/

/-- What the buffer `Format` appends to already holds: nothing for a nil or a
fresh buffer. -/
def bufferText (entry : Entry) : String :=
  match entry.Buffer with
  | some buf => buf
  | none => ""

/-- The fixed start of a line: timestamp, upper-cased level, call site and
application name, each followed by one space. -/
def lineHead (rt : Runtime) (f : LogFormat) (entry : Entry) (caller : Frame) : String :=
  rt.timeFormat entry.Time f.TimestampFormat ++ " " ++ ToUpper (LevelString entry.Level) ++ " " ++
    basename caller.File ++ ":" ++ Itoa caller.Line ++ " " ++ rt.getenv "APP_NAME" ++ " "

/-- The trace-id part of a line: nothing when the trace id is absent or
prints as the empty text. -/
def traceSegment (data : List (String × Value)) : String :=
  if fieldText data "TRACEID" "" = "" then ""
  else " TRACEID " ++ fieldText data "TRACEID" "" ++ " "

/-- The bracketed-id part of a line: nothing without an email-request id,
the email-request id alone without a partner id, both separated by a bar
otherwise. -/
def idSegment (data : List (String × Value)) : String :=
  if fieldText data "EMAILREQ" "" = "" then ""
  else if fieldText data "MITRAREQ" "" = "" then "[" ++ fieldText data "EMAILREQ" "" ++ "] "
  else "[" ++ fieldText data "EMAILREQ" "" ++ "|" ++ fieldText data "MITRAREQ" "" ++ "] "

/-- The message part of a line: nothing for the empty message. -/
def messageSegment (message : String) : String :=
  if message = "" then "" else "MSSG:" ++ message

/-- The elapsed-time part of a line: nothing without a start time. -/
def elapsedSegment (now : Int) (data : List (String × Value)) : String :=
  match data.lookup "STARTTIME" with
  | some (.int64 start) => " [" ++ printerSprintf (wrapInt64 (now - start)) ++ " ms]"
  | _ => ""

/-- Whether the start time of a record, when present, is an `int64`, the only
dynamic type the type assertion `value.(int64)` accepts. -/
def startTimeIsInt64 (data : List (String × Value)) : Bool :=
  match data.lookup "STARTTIME" with
  | some (.int64 _) => true
  | some _ => false
  | none => true

/-- The names of the fields `Format` looks at. -/
def recognisedFields : List String :=
  ["TRACEID", "EMAILREQ", "MITRAREQ", "STARTTIME"]

/-! ## Sequences of writes -/

/-- The concatenation of byte slices. -/
def concatSlices : List String → String
  | [] => ""
  | b :: bs => b ++ concatSlices bs


/-- The slices `bs` written one after the other through
`responseBodyWriter.Write`: the writer afterwards and what each call returned. -/
def writeAll (inner : GinResponseWriter → String → GinResponseWriter × Int × Option String) :
    responseBodyWriter → List String → responseBodyWriter × List (Int × Option String)
  | r, [] => (r, [])
  | r, b :: bs =>
    let res := responseBodyWriter.Write inner r b
    let rest := writeAll inner res.1 bs
    (rest.1, (res.2.1, res.2.2) :: rest.2)

/-- The slices `bs` written one after the other to the embedded writer
itself: the writer afterwards and what each call returned. -/
def innerWriteAll (inner : GinResponseWriter → String → GinResponseWriter × Int × Option String) :
    GinResponseWriter → List String → GinResponseWriter × List (Int × Option String)
  | w, [] => (w, [])
  | w, b :: bs =>
    let res := inner w b
    let rest := innerWriteAll inner res.1 bs
    (rest.1, (res.2.1, res.2.2) :: rest.2)

/-- An embedded writer that sends every slice in full and keeps the slices
it received in `written`. -/
def recordingWriter (w : GinResponseWriter) (b : String) :
    GinResponseWriter × Int × Option String :=
  ({ w with written := w.written ++ [b], size := w.size + b.utf8ByteSize }, b.utf8ByteSize, none)

/-! # Theorems -/

/-! ## Response-status classification -/

theorem captureResponseData_flags (w : responseBodyWriter) (seg : Segment) :
    (captureResponseData w seg).Error =
        (seg.Error || decide (400 ≤ w.ResponseWriter.status ∧ w.ResponseWriter.status < 500)) ∧
    (captureResponseData w seg).Throttle =
        (seg.Throttle || decide (w.ResponseWriter.status = 429)) ∧
    (captureResponseData w seg).Fault =
        (seg.Fault || decide (500 ≤ w.ResponseWriter.status ∧ w.ResponseWriter.status < 600)) ∧
    (captureResponseData w seg).HTTPResponse.Status = w.ResponseWriter.status := by
  simp only [captureResponseData, Segment.op, Segment.Lock, Segment.Unlock]
  refine ⟨?_, ?_, ?_, ?_⟩ <;> split_ifs <;> simp_all

theorem captureResponseDataNet_flags (c : Response) (seg : Segment) :
    ∃ seg', captureResponseDataNet (some c) seg = .ok seg' ∧
      seg'.Error = (seg.Error || decide (400 ≤ c.StatusCode ∧ c.StatusCode < 500)) ∧
      seg'.Throttle = (seg.Throttle || decide (c.StatusCode = 429)) ∧
      seg'.Fault = (seg.Fault || decide (500 ≤ c.StatusCode ∧ c.StatusCode < 600)) ∧
      seg'.HTTPResponse.Status = c.StatusCode := by
  refine ⟨_, rfl, ?_⟩
  simp only [Segment.op, Segment.Lock, Segment.Unlock]
  refine ⟨?_, ?_, ?_, ?_⟩ <;> split_ifs <;> simp_all

/-- C1: on a segment whose error, throttle and fault flags are all false,
`captureResponseData` and `captureResponseDataNet` leave the error flag true
iff the status is in 400..499, the throttle flag true iff it is 429 and the
fault flag true iff it is in 500..599, and record the status; so 404 gives
error only, 429 gives error and throttle, 503 gives fault only. -/
theorem C1_status_classification (s : Int) (w : responseBodyWriter) (c : Response)
    (seg : Segment) (hw : w.ResponseWriter.status = s) (hc : c.StatusCode = s)
    (he : seg.Error = false) (ht : seg.Throttle = false) (hf : seg.Fault = false) :
    (((captureResponseData w seg).Error = true ↔ 400 ≤ s ∧ s ≤ 499) ∧
      ((captureResponseData w seg).Throttle = true ↔ s = 429) ∧
      ((captureResponseData w seg).Fault = true ↔ 500 ≤ s ∧ s ≤ 599) ∧
      (captureResponseData w seg).HTTPResponse.Status = s) ∧
    (∃ seg', captureResponseDataNet (some c) seg = .ok seg' ∧
      (seg'.Error = true ↔ 400 ≤ s ∧ s ≤ 499) ∧
      (seg'.Throttle = true ↔ s = 429) ∧
      (seg'.Fault = true ↔ 500 ≤ s ∧ s ≤ 599) ∧
      seg'.HTTPResponse.Status = s) ∧
    (s = 404 → (captureResponseData w seg).Error = true ∧
      (captureResponseData w seg).Throttle = false ∧ (captureResponseData w seg).Fault = false) ∧
    (s = 429 → (captureResponseData w seg).Error = true ∧
      (captureResponseData w seg).Throttle = true ∧ (captureResponseData w seg).Fault = false) ∧
    (s = 503 → (captureResponseData w seg).Error = false ∧
      (captureResponseData w seg).Throttle = false ∧ (captureResponseData w seg).Fault = true) := by
  obtain ⟨h1, h2, h3, h4⟩ := captureResponseData_flags w seg
  obtain ⟨seg', hs, g1, g2, g3, g4⟩ := captureResponseDataNet_flags c seg
  rw [hw, he, ht, hf] at *
  rw [hc] at g1 g2 g3 g4
  refine ⟨⟨?_, ?_, ?_, ?_⟩, ⟨seg', hs, ?_, ?_, ?_, ?_⟩, ?_, ?_, ?_⟩
  · rw [h1]; simp; omega
  · rw [h2]; simp
  · rw [h3]; simp; omega
  · exact h4
  · rw [g1]; simp; omega
  · rw [g2]; simp
  · rw [g3]; simp; omega
  · exact g4
  · rintro rfl; rw [h1, h2, h3]; simp
  · rintro rfl; rw [h1, h2, h3]; simp
  · rintro rfl; rw [h1, h2, h3]; simp

theorem C1_status_classification_witness :
    ((captureResponseData ⟨⟨429, 0, [], []⟩, ""⟩ (freshSegment "abc")).Error = true ∧
      (captureResponseData ⟨⟨429, 0, [], []⟩, ""⟩ (freshSegment "abc")).Throttle = true ∧
      (captureResponseData ⟨⟨429, 0, [], []⟩, ""⟩ (freshSegment "abc")).Fault = false) :=
  (C1_status_classification 429 ⟨⟨429, 0, [], []⟩, ""⟩ ⟨"429 Too Many Requests", 429, 0⟩
    (freshSegment "abc") rfl rfl rfl rfl rfl).2.2.2.1 rfl

/-! ## Splitting -/

theorem genSplit_nil (sep : Char) (n : Nat) : genSplit sep n [] = [[]] := by
  cases n <;> simp [genSplit, indexByte]

theorem genSplit_cons_ne (sep c : Char) (cs : List Char) (n : Nat) (h : c ≠ sep) :
    genSplit sep n (c :: cs) =
      match genSplit sep n cs with
      | [] => [[c]]
      | piece :: rest => (c :: piece) :: rest := by
  cases n with
  | zero => simp [genSplit]
  | succ n =>
    simp only [genSplit, indexByte, if_neg h]
    cases hi : indexByte sep cs <;> simp

theorem genSplit_eq_fieldsOf (sep : Char) (s : List Char) :
    ∀ n, s.count sep ≤ n → genSplit sep n s = fieldsOf sep s := by
  induction s with
  | nil => intro n _; simp [genSplit_nil, fieldsOf]
  | cons c cs ih =>
    intro n hn
    by_cases h : c = sep
    · subst h
      rw [List.count_cons_self] at hn
      obtain ⟨m, rfl⟩ : ∃ m, n = m + 1 := ⟨n - 1, by omega⟩
      simp [genSplit, indexByte, fieldsOf, ih m (by omega)]
    · rw [List.count_cons_of_ne (Ne.symm h)] at hn
      rw [genSplit_cons_ne sep c cs n h, ih n hn]
      simp [fieldsOf, h]

theorem Split_eq_fieldsOf (s : String) (sep : Char) :
    Split s sep = (fieldsOf sep s.data).map String.mk := by
  rw [Split, genSplit_eq_fieldsOf sep s.data _ le_rfl]

theorem indexByte_none (sep : Char) (s : List Char) (h : indexByte sep s = none) :
    s.takeWhile (fun c => c != sep) = s ∧ s.dropWhile (fun c => c != sep) = [] := by
  induction s with
  | nil => simp
  | cons c cs ih =>
    by_cases hc : c = sep
    · simp [indexByte, hc] at h
    · simp only [indexByte, if_neg hc, Option.map_eq_none'] at h
      have hb : (c != sep) = true := by simpa using hc
      simp [List.takeWhile, List.dropWhile, hb, ih h]

theorem indexByte_some (sep : Char) (s : List Char) (m : Nat) (h : indexByte sep s = some m) :
    s.take m = s.takeWhile (fun c => c != sep) ∧
    s.drop (m + 1) = (s.dropWhile (fun c => c != sep)).drop 1 := by
  induction s generalizing m with
  | nil => simp [indexByte] at h
  | cons c cs ih =>
    by_cases hc : c = sep
    · simp only [indexByte, if_pos hc, Option.some.injEq] at h
      subst h
      have hb : (c != sep) = false := by simpa using hc
      simp [List.takeWhile, List.dropWhile, hb]
    · simp only [indexByte, if_neg hc, Option.map_eq_some'] at h
      obtain ⟨k, hk, rfl⟩ := h
      have hb : (c != sep) = true := by simpa using hc
      simp [List.takeWhile, List.dropWhile, hb, ih k hk]

/-- The two pieces `SplitN(c, "=", 2)` yields are the text before the first
`=` and, when there is one, the text after it. -/
theorem SplitN_two (c : String) :
    (SplitN c '=' 2).getD 0 "" = ⟨c.data.takeWhile (fun x => x != '=')⟩ ∧
    (if (SplitN c '=' 2).length > 1 then TrimSpace ((SplitN c '=' 2).getD 1 "") else "") =
      TrimSpace ⟨(c.data.dropWhile (fun x => x != '=')).drop 1⟩ := by
  obtain ⟨s⟩ := c
  cases s with
  | nil => simp [SplitN, genSplit]; decide
  | cons a as =>
    have hn : min 2 ((a :: as).length + 1) - 1 = 1 := by simp
    simp only [SplitN, hn, genSplit]
    cases hi : indexByte '=' (a :: as) with
    | none =>
      obtain ⟨h1, h2⟩ := indexByte_none '=' _ hi
      simp only [h1, h2]
      simp
      decide
    | some m =>
      obtain ⟨h1, h2⟩ := indexByte_some '=' _ m hi
      simp [h1, h2]

/-! ## Maps -/

theorem lookup_filter_ne (k k' : String) (l : List (String × String)) (h : k' ≠ k) :
    (l.filter (fun p => p.1 != k)).lookup k' = l.lookup k' := by
  induction l with
  | nil => rfl
  | cons p l ih =>
    obtain ⟨a, b⟩ := p
    by_cases ha : a = k
    · subst ha
      have : (k' == a) = false := by simpa using h
      simp [List.filter, List.lookup, this, ih]
    · have : (a != k) = true := by simpa using ha
      simp only [List.filter, this, List.lookup]
      cases k' == a <;> simp [ih]

theorem StrMap.find?_set (m : StrMap) (k v k' : String) :
    (m.set k v).find? k' = if k' = k then some v else m.find? k' := by
  by_cases h : k' = k
  · subst h; simp [StrMap.set, StrMap.find?, List.lookup]
  · have : (k' == k) = false := by simpa using h
    simp [StrMap.set, StrMap.find?, List.lookup, this, h, lookup_filter_ne k k' _ h]

theorem StrMap.keys_set_nodup (m : StrMap) (k v : String) (h : m.keys.Nodup) :
    (m.set k v).keys.Nodup := by
  simp only [StrMap.keys, StrMap.set, List.map_cons, List.nodup_cons]
  constructor
  · simp [List.mem_map, List.mem_filter]
  · exact (List.Sublist.map _ (List.filter_sublist _)).nodup h

/-- One round of the loop of `parseHeaders`. -/
theorem parseStep_eq (m : StrMap) (c : String) :
    (let p := SplitN c '=' 2
     let k := TrimSpace (p.getD 0 "")
     let v := if p.length > 1 then TrimSpace (p.getD 1 "") else ""
     m.set k v) = m.set (segmentKey c.data) (segmentValue c.data) := by
  obtain ⟨h1, h2⟩ := SplitN_two c
  simp only [h1, h2, segmentKey, segmentValue]

theorem parseHeaders_eq (env : Env) (h : Header) :
    parseHeaders env h =
      (fieldsOf ';' (h.Get (env "XRAY_TRACE")).data).foldl
        (fun m seg => m.set (segmentKey seg) (segmentValue seg)) StrMap.empty := by
  simp only [parseHeaders, Split_eq_fieldsOf, List.foldl_map]
  congr 1
  funext m seg
  exact parseStep_eq m ⟨seg⟩

theorem foldl_set_find? (l : List (List Char)) (m : StrMap) (k : String) :
    (l.foldl (fun m seg => m.set (segmentKey seg) (segmentValue seg)) m).find? k =
      match l.reverse.find? (fun seg => segmentKey seg == k) with
      | some seg => some (segmentValue seg)
      | none => m.find? k := by
  induction l using List.reverseRecOn with
  | nil => simp
  | append_singleton l c ih =>
    simp only [List.foldl_append, List.foldl_cons, List.foldl_nil, List.reverse_append,
      List.reverse_cons, List.reverse_nil, List.nil_append, List.singleton_append,
      StrMap.find?_set, List.find?]
    by_cases hk : segmentKey c = k
    · simp [hk]
    · have : (segmentKey c == k) = false := by simpa using hk
      simp [this, Ne.symm hk, ih]

theorem foldl_set_keys_nodup (l : List (List Char)) (m : StrMap) (h : m.keys.Nodup) :
    (l.foldl (fun m seg => m.set (segmentKey seg) (segmentValue seg)) m).keys.Nodup := by
  induction l generalizing m with
  | nil => exact h
  | cons c l ih => exact ih _ (StrMap.keys_set_nodup m _ _ h)

/-- C2: `parseHeaders` gives every key the trimmed value of the last
semicolon-separated segment whose trimmed text before the first `=` is that
key (the empty string when that segment has no `=`), gives a key no entry when
no segment carries it, whatever the key is, and holds each key once; the
header `Root=abc;Parent=def;Sampled=1` yields exactly the three entries
Root: abc, Parent: def, Sampled: 1. -/
theorem C2_parseHeaders_segments (env : Env) (h : Header) :
    (∀ k, (parseHeaders env h).find? k = specLookup (h.Get (env "XRAY_TRACE")) k) ∧
    (parseHeaders env h).keys.Nodup ∧
    (h.Get (env "XRAY_TRACE") = "Root=abc;Parent=def;Sampled=1" →
      List.Perm (parseHeaders env h).entries
        [("Root", "abc"), ("Parent", "def"), ("Sampled", "1")]) := by
  refine ⟨fun k => ?_, ?_, fun hv => ?_⟩
  · rw [parseHeaders_eq, foldl_set_find?, specLookup]
    cases List.find? (fun seg => segmentKey seg == k)
      (fieldsOf ';' (h.Get (env "XRAY_TRACE")).data).reverse <;> simp [StrMap.find?, StrMap.empty]
  · rw [parseHeaders_eq]
    exact foldl_set_keys_nodup _ _ (by simp [StrMap.keys, StrMap.empty])
  · simp only [parseHeaders, hv]
    decide

theorem C2_parseHeaders_segments_witness :
    List.Perm (parseHeaders exampleEnv (traceHeader "Root=abc;Parent=def;Sampled=1")).entries
      [("Root", "abc"), ("Parent", "def"), ("Sampled", "1")] :=
  (C2_parseHeaders_segments exampleEnv (traceHeader "Root=abc;Parent=def;Sampled=1")).2.2
    (by decide)

/-- C3, as stated, fails: with no trace header at all the parsed map is not
empty, it has the empty string as a key. -/
theorem C3_empty_header_counterexample :
    Header.Get [] (exampleEnv "XRAY_TRACE") = "" ∧
    (parseHeaders exampleEnv []).keys = [""] ∧
    parseHeaders exampleEnv [] ≠ StrMap.empty := by
  decide

/-- C3, amended: when the trace header is missing or empty, `parseHeaders`
returns the map whose only entry sends the empty key to the empty string, so
no non-empty key (Root, Parent, Sampled, ...) has an entry. -/
theorem C3_empty_header_single_entry (env : Env) (h : Header)
    (hv : h.Get (env "XRAY_TRACE") = "") :
    (parseHeaders env h).entries = [("", "")] ∧
    (∀ k, k ≠ "" → (parseHeaders env h).find? k = none) ∧
    (∀ k, (parseHeaders env h).get k = "") := by
  have he : (parseHeaders env h).entries = [("", "")] := by
    simp only [parseHeaders, hv]
    decide
  refine ⟨he, fun k hk => ?_, fun k => ?_⟩
  · have : (k == "") = false := by simpa using hk
    simp [StrMap.find?, he, List.lookup, this]
  · simp only [StrMap.get, StrMap.find?, he, List.lookup]
    cases k == "" <;> rfl

theorem C3_empty_header_single_entry_witness :
    (parseHeaders exampleEnv (traceHeader "")).entries = [("", "")] :=
  (C3_empty_header_single_entry exampleEnv (traceHeader "") (by decide)).1

/-! ## The propagated trace header -/

theorem createTraceHeader_traceID (env : Env) (r : Request) (seg : Segment) :
    (createTraceHeader env r seg).2.TraceID =
      if (parseHeaders env r.Header).get "Root" = "" then seg.TraceID
      else (parseHeaders env r.Header).get "Root" := by
  simp only [createTraceHeader, Segment.op]
  by_cases h1 : (parseHeaders env r.Header).get "Root" = "" <;>
    by_cases h2 : (parseHeaders env r.Header).get "Parent" = "" <;>
    by_cases h3 : (parseHeaders env r.Header).get "Sampled" = "?" <;>
    simp [h1, h2, h3]

theorem createTraceHeader_sampled (env : Env) (r : Request) (seg : Segment) :
    (createTraceHeader env r seg).2.Sampled =
      ((parseHeaders env r.Header).get "Sampled" != "0") := by
  simp only [createTraceHeader, Segment.op]
  by_cases h3 : (parseHeaders env r.Header).get "Sampled" = "?" <;> simp [h3]

theorem createTraceHeader_value (env : Env) (r : Request) (seg : Segment) :
    (createTraceHeader env r seg).1 =
      if (parseHeaders env r.Header).get "Sampled" = "?" then
        "Root=" ++ (createTraceHeader env r seg).2.TraceID ++ ";Sampled=1"
      else "Root=" ++ (createTraceHeader env r seg).2.TraceID := by
  have hone : ∀ s : String, s ++ ";Sampled=" ++ toString (1 : Int) = s ++ ";Sampled=1" := by
    intro s
    rw [String.append_assoc]
    rfl
  rw [createTraceHeader_traceID]
  simp only [createTraceHeader, Segment.op]
  by_cases h1 : (parseHeaders env r.Header).get "Root" = "" <;>
    by_cases h2 : (parseHeaders env r.Header).get "Parent" = "" <;>
    by_cases h3 : (parseHeaders env r.Header).get "Sampled" = "?" <;>
    simp [h1, h2, h3, btoi, Itoa, hone]

theorem append_ne_self (s t : String) (ht : t.length ≠ 0) : s ++ t ≠ s := by
  intro h
  have := congrArg String.length h
  rw [String.length_append] at this
  omega

/-- C4: `createTraceHeader` returns `Root=` followed by the segment's trace
id, which is the inbound Root value when that is non-empty and the trace id
the segment already had otherwise, followed by `;Sampled=0` or `;Sampled=1`
if and only if the inbound Sampled value is exactly `?`, and nothing else;
for trace id abc and inbound Sampled `1` the result is exactly `Root=abc`. -/
theorem C4_createTraceHeader_output (env : Env) (r : Request) (seg : Segment) :
    (createTraceHeader env r seg).2.TraceID =
      (if (parseHeaders env r.Header).get "Root" = "" then seg.TraceID
       else (parseHeaders env r.Header).get "Root") ∧
    (((createTraceHeader env r seg).1 =
        "Root=" ++ (createTraceHeader env r seg).2.TraceID ++ ";Sampled=0" ∨
      (createTraceHeader env r seg).1 =
        "Root=" ++ (createTraceHeader env r seg).2.TraceID ++ ";Sampled=1") ↔
      (parseHeaders env r.Header).get "Sampled" = "?") ∧
    ((parseHeaders env r.Header).get "Sampled" ≠ "?" →
      (createTraceHeader env r seg).1 = "Root=" ++ (createTraceHeader env r seg).2.TraceID) ∧
    ((createTraceHeader env r seg).2.TraceID = "abc" →
      (parseHeaders env r.Header).get "Sampled" = "1" →
      (createTraceHeader env r seg).1 = "Root=abc") := by
  have hv := createTraceHeader_value env r seg
  refine ⟨createTraceHeader_traceID env r seg, ⟨fun h => ?_, fun h => ?_⟩, fun h => ?_,
    fun ht hs => ?_⟩
  · by_contra hq
    rw [if_neg hq] at hv
    rw [hv] at h
    rcases h with h | h
    · exact append_ne_self _ ";Sampled=0" (by decide) h.symm
    · exact append_ne_self _ ";Sampled=1" (by decide) h.symm
  · rw [if_pos h] at hv
    exact Or.inr hv
  · rw [if_neg h] at hv
    exact hv
  · have hq : (parseHeaders env r.Header).get "Sampled" ≠ "?" := by rw [hs]; decide
    rw [if_neg hq, ht] at hv
    rw [hv]
    rfl

theorem C4_createTraceHeader_output_witness :
    (createTraceHeader exampleEnv
      ⟨"GET", "/", "h", "10.0.0.1:1234", traceHeader "Root=abc;Sampled=1"⟩
      (freshSegment "old")).1 = "Root=abc" :=
  (C4_createTraceHeader_output exampleEnv
    ⟨"GET", "/", "h", "10.0.0.1:1234", traceHeader "Root=abc;Sampled=1"⟩
    (freshSegment "old")).2.2.2 (by decide) (by decide)

/-- C5, as stated, fails: for a segment with trace id abc whose sampled flag
is false on entry and an inbound Sampled value `?`, the header returned is
`Root=abc;Sampled=1`, not `Root=abc;Sampled=0`. -/
theorem C5_sampled_decision_counterexample :
    (freshSegment "abc").Sampled = false ∧
    (parseHeaders exampleEnv (traceHeader "Sampled=?")).get "Sampled" = "?" ∧
    (createTraceHeader exampleEnv ⟨"GET", "/", "h", "10.0.0.1:1234", traceHeader "Sampled=?"⟩
      (freshSegment "abc")).1 = "Root=abc;Sampled=1" ∧
    (createTraceHeader exampleEnv ⟨"GET", "/", "h", "10.0.0.1:1234", traceHeader "Sampled=?"⟩
      (freshSegment "abc")).1 ≠ "Root=abc;Sampled=0" := by
  decide

/-- C5, amended: when the inbound Sampled value is `?`, `createTraceHeader`
returns `Root=<trace id>;Sampled=1` whatever the segment's sampled flag was on
entry, and leaves that flag true; `;Sampled=0` is never the ending. -/
theorem C5_sampled_always_one (env : Env) (r : Request) (seg : Segment)
    (hq : (parseHeaders env r.Header).get "Sampled" = "?") :
    (createTraceHeader env r seg).1 =
      "Root=" ++ (createTraceHeader env r seg).2.TraceID ++ ";Sampled=1" ∧
    (createTraceHeader env r seg).2.Sampled = true ∧
    (createTraceHeader env r seg).1 ≠
      "Root=" ++ (createTraceHeader env r seg).2.TraceID ++ ";Sampled=0" ∧
    ((createTraceHeader env r seg).2.TraceID = "abc" →
      (createTraceHeader env r seg).1 = "Root=abc;Sampled=1") := by
  have hv := createTraceHeader_value env r seg
  rw [if_pos hq] at hv
  refine ⟨hv, ?_, ?_, fun ht => ?_⟩
  · rw [createTraceHeader_sampled, hq]
    decide
  · rw [hv]
    intro h
    have h2 := congrArg String.data h
    simp only [String.data_append, List.append_cancel_left_eq] at h2
    exact absurd h2 (by decide)
  · rw [hv, ht]
    rfl

theorem C5_sampled_always_one_witness :
    (createTraceHeader exampleEnv ⟨"GET", "/", "h", "10.0.0.1:1234", traceHeader "Sampled=?"⟩
      { freshSegment "abc" with Sampled := false }).1 = "Root=abc;Sampled=1" :=
  (C5_sampled_always_one exampleEnv ⟨"GET", "/", "h", "10.0.0.1:1234", traceHeader "Sampled=?"⟩
    { freshSegment "abc" with Sampled := false } (by decide)).2.2.2 (by decide)

/-! ## Client address -/

theorem Split_head (s : String) (sep : Char) :
    (Split s sep).getD 0 "" = ⟨(fieldsOf sep s.data).headD []⟩ := by
  rw [Split_eq_fieldsOf]
  cases fieldsOf sep s.data <;> simp

/-- C6, as stated, fails: a request whose X-Forwarded-For header is present
with an empty value counts as having none, and its client address is the raw
connection address, not the (empty) first value of the header. -/
theorem C6_clientIP_counterexample :
    Header.Has [("X-Forwarded-For", [""])] "X-Forwarded-For" = true ∧
    hasXForwardedFor ⟨"GET", "/", "h", "10.0.0.1:1234", [("X-Forwarded-For", [""])]⟩ = false ∧
    clientIP ⟨"GET", "/", "h", "10.0.0.1:1234", [("X-Forwarded-For", [""])]⟩ =
      "10.0.0.1:1234" := by
  decide

/-- C6, amended: `clientIP` returns the trimmed first comma-separated value of
the X-Forwarded-For header when the value of that header is non-empty, and the
raw connection address otherwise; `hasXForwardedFor` is true exactly when the
value is non-empty (and then the header is present); the value
`1.2.3.4, 5.6.7.6` yields `1.2.3.4`. -/
theorem C6_clientIP_nonempty_value (r : Request) :
    (r.Header.Get "X-Forwarded-For" ≠ "" →
      clientIP r = TrimSpace ⟨(fieldsOf ',' (r.Header.Get "X-Forwarded-For").data).headD []⟩) ∧
    (r.Header.Get "X-Forwarded-For" = "" → clientIP r = r.RemoteAddr) ∧
    (hasXForwardedFor r = true ↔ r.Header.Get "X-Forwarded-For" ≠ "") ∧
    (hasXForwardedFor r = true → r.Header.Has "X-Forwarded-For" = true) ∧
    (r.Header.Get "X-Forwarded-For" = "1.2.3.4, 5.6.7.6" → clientIP r = "1.2.3.4") := by
  refine ⟨fun h => ?_, fun h => ?_, ?_, fun h => ?_, fun h => ?_⟩
  · have hb : (r.Header.Get "X-Forwarded-For" != "") = true := by simpa using h
    simp only [clientIP, hb, if_true]
    rw [Split_head]
  · simp [clientIP, h]
  · simp [hasXForwardedFor]
  · simp only [hasXForwardedFor, Header.Get, Header.Has] at *
    cases hl : List.lookup (CanonicalMIMEHeaderKey "X-Forwarded-For") r.Header with
    | none => simp [hl] at h
    | some v => rfl
  · have hb : (("1.2.3.4, 5.6.7.6" : String) != "") = true := by decide
    simp only [clientIP, h, hb, if_true]
    decide

theorem C6_clientIP_nonempty_value_witness :
    clientIP ⟨"GET", "/", "h", "10.0.0.1:1234", [("X-Forwarded-For", ["1.2.3.4, 5.6.7.6"])]⟩ =
      "1.2.3.4" :=
  (C6_clientIP_nonempty_value
    ⟨"GET", "/", "h", "10.0.0.1:1234", [("X-Forwarded-For", ["1.2.3.4, 5.6.7.6"])]⟩).2.2.2.2
    (by decide)

/-! ## The call-site file name -/

theorem lastIndexByte_none (sep : Char) (s : List Char) (h : lastIndexByte sep s = none) :
    ∀ x ∈ s, x ≠ sep := by
  induction s with
  | nil => simp
  | cons c cs ih =>
    simp only [lastIndexByte] at h
    cases hl : lastIndexByte sep cs with
    | some i => simp [hl] at h
    | none =>
      rw [hl] at h
      by_cases hc : c = sep
      · simp [hc] at h
      · intro x hx
        rcases List.mem_cons.1 hx with rfl | hx
        · exact hc
        · exact ih hl x hx

theorem lastIndexByte_some (sep : Char) (s : List Char) (i : Nat)
    (h : lastIndexByte sep s = some i) :
    ∃ a b, s = a ++ sep :: b ∧ a.length = i ∧ ∀ x ∈ b, x ≠ sep := by
  induction s generalizing i with
  | nil => simp [lastIndexByte] at h
  | cons c cs ih =>
    simp only [lastIndexByte] at h
    cases hl : lastIndexByte sep cs with
    | some j =>
      rw [hl] at h
      simp only [Option.some.injEq] at h
      obtain ⟨a, b, hs, ha, hb⟩ := ih j hl
      exact ⟨c :: a, b, by simp [hs], by simp [ha, h], hb⟩
    | none =>
      rw [hl] at h
      by_cases hc : c = sep
      · simp only [hc, if_true, Option.some.injEq] at h
        exact ⟨[], cs, by simp [hc], by simp [h], lastIndexByte_none sep cs hl⟩
      · simp [hc] at h

theorem takeWhile_append_stop (p : Char → Bool) (l r : List Char) (y : Char)
    (hl : ∀ x ∈ l, p x = true) (hy : p y = false) : (l ++ y :: r).takeWhile p = l := by
  induction l with
  | nil => simp [List.takeWhile, hy]
  | cons a l ih =>
    have ha : p a = true := hl a (List.mem_cons_self _ _)
    rw [List.cons_append, List.takeWhile_cons_of_pos ha,
      ih (fun x hx => hl x (List.mem_cons_of_mem _ hx))]

theorem takeWhile_all (p : Char → Bool) (l : List Char) (hl : ∀ x ∈ l, p x = true) :
    l.takeWhile p = l := by
  induction l with
  | nil => rfl
  | cons a l ih =>
    have ha : p a = true := hl a (List.mem_cons_self _ _)
    rw [List.takeWhile_cons_of_pos ha, ih (fun x hx => hl x (List.mem_cons_of_mem _ hx))]

/-- The slice `file[strings.LastIndex(file, "/")+1:]` is the text after the
last slash of `file`. -/
theorem sliceFrom_lastIndex (file : String) :
    sliceFrom file (LastIndex file '/' + 1) = basename file := by
  obtain ⟨s⟩ := file
  simp only [sliceFrom, LastIndex, basename]
  congr 1
  cases hl : lastIndexByte '/' s with
  | none =>
    have hn := lastIndexByte_none '/' s hl
    have : s.reverse.takeWhile (fun c => c != '/') = s.reverse :=
      takeWhile_all _ _ (fun x hx => by simpa using hn x (List.mem_reverse.1 hx))
    simp [this]
  | some i =>
    obtain ⟨a, b, hs, ha, hb⟩ := lastIndexByte_some '/' s i hl
    have h1 : (s.reverse).takeWhile (fun c => c != '/') = b.reverse := by
      rw [hs, List.reverse_append, List.reverse_cons, List.append_assoc]
      exact takeWhile_append_stop _ _ _ _
        (fun x hx => by simpa using hb x (List.mem_reverse.1 hx)) (by simp)
    have h2 : ((i : Int) + 1).toNat = a.length + 1 := by omega
    simp only [h1, List.reverse_reverse, h2]
    rw [hs]
    simp

/-! ## The field loop of the formatter -/

theorem lookup_of_not_mem (data : List (String × Value)) (key : String)
    (h : key ∉ data.map Prod.fst) : data.lookup key = none := by
  induction data with
  | nil => rfl
  | cons p rest ih =>
    obtain ⟨k, v⟩ := p
    simp only [List.map_cons, List.mem_cons, not_or] at h
    have : (key == k) = false := by simpa using h.1
    simp [List.lookup, this, ih h.2]

/-- The loop over a field map (each key once) leaves in the four variables the
texts of the four recognised fields, whatever the order of the visit, and
panics exactly when the start time is not an `int64`. -/
theorem formatFields_nodup (now : Int) (data : List (String × Value)) :
    (data.map Prod.fst).Nodup → ∀ vars : FormatVars,
    formatFields now data vars =
      match data.lookup "STARTTIME" with
      | some (.int64 start) =>
        some ⟨fieldText data "TRACEID" vars.traceId, fieldText data "EMAILREQ" vars.emailReq,
          fieldText data "MITRAREQ" vars.mitraReq,
          " [" ++ printerSprintf (wrapInt64 (now - start)) ++ " ms]"⟩
      | some _ => none
      | none =>
        some ⟨fieldText data "TRACEID" vars.traceId, fieldText data "EMAILREQ" vars.emailReq,
          fieldText data "MITRAREQ" vars.mitraReq, vars.responseTime⟩ := by
  induction data with
  | nil => intro _ vars; simp [formatFields, fieldText]
  | cons p rest ih =>
    obtain ⟨k, v⟩ := p
    intro hnd vars
    rw [List.map_cons, List.nodup_cons] at hnd
    obtain ⟨hk, hrest⟩ := hnd
    have hkl := lookup_of_not_mem rest k hk
    by_cases h1 : k = "TRACEID"
    · subst h1
      simp only [formatFields, formatField, beq_self_eq_true, if_true, ih hrest]
      cases hs : List.lookup "STARTTIME" rest with
      | none => simp [fieldText, List.lookup, hkl, hs]
      | some w => cases w <;> simp [fieldText, List.lookup, hkl, hs]
    by_cases h2 : k = "EMAILREQ"
    · subst h2
      simp only [formatFields, formatField, beq_self_eq_true, if_true, ih hrest]
      cases hs : List.lookup "STARTTIME" rest with
      | none => simp [fieldText, List.lookup, hkl, hs]
      | some w => cases w <;> simp [fieldText, List.lookup, hkl, hs]
    by_cases h3 : k = "MITRAREQ"
    · subst h3
      simp only [formatFields, formatField, beq_self_eq_true, if_true, ih hrest]
      cases hs : List.lookup "STARTTIME" rest with
      | none => simp [fieldText, List.lookup, hkl, hs]
      | some w => cases w <;> simp [fieldText, List.lookup, hkl, hs]
    by_cases h4 : k = "STARTTIME"
    · subst h4
      cases v with
      | int64 start =>
        simp [formatFields, formatField, ih hrest, fieldText, List.lookup, hkl]
      | str s => simp [formatFields, formatField, List.lookup]
      | other t => simp [formatFields, formatField, List.lookup]
    · have e1 : ("TRACEID" == k) = false := by simpa using Ne.symm h1
      have e2 : ("EMAILREQ" == k) = false := by simpa using Ne.symm h2
      have e3 : ("MITRAREQ" == k) = false := by simpa using Ne.symm h3
      have e4 : ("STARTTIME" == k) = false := by simpa using Ne.symm h4
      simp [formatFields, formatField, h1, h2, h3, h4, ih hrest, fieldText, List.lookup,
        e1, e2, e3, e4]

/-! ## The formatted line -/

/-- C7, as stated, fails: the line for a record with trace id, both request
ids and a message has two spaces, not one, between the application name and
`TRACEID`. -/
theorem C7_format_line_counterexample :
    Format exampleRuntime exampleFormat
        (exampleEntry [("TRACEID", .str "t1"), ("EMAILREQ", .str "e1"), ("MITRAREQ", .str "m1")]
          "hello") =
      .ok ("01/02/2024 10:00:00,000 INFO main.go:42 app  TRACEID t1 [e1|m1] MSSG:hello\n", none) ∧
    Format exampleRuntime exampleFormat
        (exampleEntry [("TRACEID", .str "t1"), ("EMAILREQ", .str "e1"), ("MITRAREQ", .str "m1")]
          "hello") ≠
      .ok ("01/02/2024 10:00:00,000 INFO main.go:42 app TRACEID t1 [e1|m1] MSSG:hello\n", none) := by
  decide

/-- C7, amended: for a record with a call site, a non-empty trace id,
email-request id, partner id and message and no start-time field, `Format`
returns exactly the line
`<timestamp> <LEVEL> <basename(file)>:<line> <app-name>  TRACEID <id> [<emailReq>|<mitraReq>] MSSG:<message>`
and a newline, with no error: fixed order, upper-cased level, file reduced to
the text after its last slash, one space between neighbours except two spaces
between the application name and `TRACEID`. -/
theorem C7_format_line_two_spaces (rt : Runtime) (f : LogFormat) (entry : Entry)
    (caller : Frame) (vt ve vm : Value)
    (hb : entry.Buffer = none ∨ entry.Buffer = some "")
    (hc : entry.Caller = some caller)
    (hk : (entry.Data.map Prod.fst).Nodup)
    (ht : entry.Data.lookup "TRACEID" = some vt) (hte : Sprint vt ≠ "")
    (he : entry.Data.lookup "EMAILREQ" = some ve) (hee : Sprint ve ≠ "")
    (hm : entry.Data.lookup "MITRAREQ" = some vm) (hme : Sprint vm ≠ "")
    (hs : entry.Data.lookup "STARTTIME" = none)
    (hmsg : entry.Message ≠ "") :
    Format rt f entry =
      .ok (rt.timeFormat entry.Time f.TimestampFormat ++ " " ++
        ToUpper (LevelString entry.Level) ++ " " ++
        basename caller.File ++ ":" ++ Itoa caller.Line ++ " " ++
        rt.getenv "APP_NAME" ++ " " ++
        " TRACEID " ++ Sprint vt ++ " " ++
        "[" ++ Sprint ve ++ "|" ++ Sprint vm ++ "] " ++
        "MSSG:" ++ entry.Message ++ "\n", none) := by
  have hbuf : (match entry.Buffer with | some buf => buf | none => "") = "" := by
    rcases hb with h | h <;> rw [h]
  simp only [Format, hbuf, hc, formatFields_nodup rt.nowMilli entry.Data hk, hs, fieldText, ht,
    he, hm, sliceFrom_lastIndex]
  have e1 : (Sprint vt != "") = true := by simpa using hte
  have e2 : (Sprint ve != "") = true := by simpa using hee
  have e3 : (Sprint vm != "") = true := by simpa using hme
  have e4 : (entry.Message != "") = true := by simpa using hmsg
  have e0 : (("" : String) != "") = false := by decide
  simp only [e0, e1, e2, e3, e4, if_true, Bool.false_eq_true, if_false, String.append_assoc,
    String.empty_append]

theorem C7_format_line_two_spaces_witness :
    Format exampleRuntime exampleFormat
        (exampleEntry [("TRACEID", .str "t1"), ("EMAILREQ", .str "e1"), ("MITRAREQ", .str "m1")]
          "hello") =
      .ok ("01/02/2024 10:00:00,000" ++ " " ++ ToUpper (LevelString 4) ++ " " ++
        basename "/src/app/main.go" ++ ":" ++ Itoa 42 ++ " " ++ exampleEnv "APP_NAME" ++ " " ++
        " TRACEID " ++ "t1" ++ " " ++ "[" ++ "e1" ++ "|" ++ "m1" ++ "] " ++
        "MSSG:" ++ "hello" ++ "\n", none) :=
  C7_format_line_two_spaces exampleRuntime exampleFormat
    (exampleEntry [("TRACEID", .str "t1"), ("EMAILREQ", .str "e1"), ("MITRAREQ", .str "m1")]
      "hello")
    ⟨"/src/app/main.go", 42⟩ (.str "t1") (.str "e1") (.str "m1")
    (Or.inl rfl) rfl (by decide) (by decide) (by decide) (by decide) (by decide) (by decide)
    (by decide) (by decide) (by decide)

/-- C8, as stated, fails: for a record with an empty field map and the empty
message, the line does not end with `MSSG:` and a newline; it has no `MSSG:`
part at all. -/
theorem C8_message_only_counterexample :
    Format exampleRuntime exampleFormat (exampleEntry [] "") =
      .ok ("01/02/2024 10:00:00,000 INFO main.go:42 app \n", none) ∧
    ¬ ("MSSG:" ++ "" ++ "\n").data <:+ "01/02/2024 10:00:00,000 INFO main.go:42 app \n".data := by
  decide

/-- C8, amended: for a record with a call site and an empty field map,
`Format` returns the line
`<timestamp> <LEVEL> <basename(file)>:<line> <app-name> MSSG:<message>` and a
newline when the message is non-empty, so the line ends with `MSSG:`, the
message and a newline and has no TRACEID, bracketed-id or elapsed-time part;
when the message is empty the line stops after the application name and its
space, with no `MSSG:` part. -/
theorem C8_message_only (rt : Runtime) (f : LogFormat) (entry : Entry) (caller : Frame)
    (hb : entry.Buffer = none ∨ entry.Buffer = some "")
    (hc : entry.Caller = some caller)
    (hd : entry.Data = []) :
    (entry.Message ≠ "" →
      Format rt f entry =
        .ok (rt.timeFormat entry.Time f.TimestampFormat ++ " " ++
          ToUpper (LevelString entry.Level) ++ " " ++
          basename caller.File ++ ":" ++ Itoa caller.Line ++ " " ++
          rt.getenv "APP_NAME" ++ " " ++ "MSSG:" ++ entry.Message ++ "\n", none)) ∧
    (entry.Message ≠ "" → ∃ line, Format rt f entry = .ok (line, none) ∧
      ("MSSG:" ++ entry.Message ++ "\n").data <:+ line.data) ∧
    (entry.Message = "" →
      Format rt f entry =
        .ok (rt.timeFormat entry.Time f.TimestampFormat ++ " " ++
          ToUpper (LevelString entry.Level) ++ " " ++
          basename caller.File ++ ":" ++ Itoa caller.Line ++ " " ++
          rt.getenv "APP_NAME" ++ " " ++ "\n", none)) := by
  have hbuf : (match entry.Buffer with | some buf => buf | none => "") = "" := by
    rcases hb with h | h <;> rw [h]
  have key : entry.Message ≠ "" →
      Format rt f entry =
        .ok (rt.timeFormat entry.Time f.TimestampFormat ++ " " ++
          ToUpper (LevelString entry.Level) ++ " " ++
          basename caller.File ++ ":" ++ Itoa caller.Line ++ " " ++
          rt.getenv "APP_NAME" ++ " " ++ "MSSG:" ++ entry.Message ++ "\n", none) := by
    intro hmsg
    have e4 : (entry.Message != "") = true := by simpa using hmsg
    have e0 : (("" : String) != "") = false := by decide
    simp only [Format, hbuf, hc, hd, formatFields, sliceFrom_lastIndex]
    simp only [e0, e4, if_true, Bool.false_eq_true, if_false, String.append_assoc,
      String.empty_append]
  refine ⟨key, fun hmsg => ⟨_, key hmsg, ?_⟩, fun hmsg => ?_⟩
  · refine ⟨(rt.timeFormat entry.Time f.TimestampFormat ++ " " ++
      ToUpper (LevelString entry.Level) ++ " " ++
      basename caller.File ++ ":" ++ Itoa caller.Line ++ " " ++
      rt.getenv "APP_NAME" ++ " ").data, ?_⟩
    simp only [String.data_append, List.append_assoc]
  · have e0 : (("" : String) != "") = false := by decide
    simp only [Format, hbuf, hc, hd, formatFields, sliceFrom_lastIndex, hmsg]
    simp only [e0, Bool.false_eq_true, if_false, String.append_assoc, String.empty_append]

theorem C8_message_only_witness :
    Format exampleRuntime exampleFormat (exampleEntry [] "hello") =
      .ok ("01/02/2024 10:00:00,000" ++ " " ++ ToUpper (LevelString 4) ++ " " ++
        basename "/src/app/main.go" ++ ":" ++ Itoa 42 ++ " " ++ exampleEnv "APP_NAME" ++ " " ++
        "MSSG:" ++ "hello" ++ "\n", none) :=
  (C8_message_only exampleRuntime exampleFormat (exampleEntry [] "hello")
    ⟨"/src/app/main.go", 42⟩ (Or.inl rfl) rfl rfl).1 (by decide)

/-! ## Operations performed on the segment -/

theorem captureResponseData_ops (w : responseBodyWriter) (seg : Segment) :
    ∃ l, (captureResponseData w seg).ops =
        seg.ops ++ [.Lock] ++ [.Write "HTTP.Response.Status"] ++ l ∧ SegOp.Close ∉ l := by
  refine ⟨[.Write "HTTP.Response.ContentLength"] ++
    (if w.ResponseWriter.status ≥ 400 && w.ResponseWriter.status < 500
      then [.Write "Error"] else []) ++
    (if w.ResponseWriter.status == 429 then [.Write "Throttle"] else []) ++
    (if w.ResponseWriter.status ≥ 500 && w.ResponseWriter.status < 600
      then [.Write "Fault"] else []) ++ [.Unlock], ?_, ?_⟩
  · simp only [captureResponseData, Segment.op, Segment.Lock, Segment.Unlock]
    split_ifs <;> simp
  · split_ifs <;> simp

theorem captureResponseDataNet_eq (c : Response) (seg : Segment) :
    captureResponseDataNet (some c) seg =
      .ok (captureResponseData ⟨⟨c.StatusCode, c.ContentLength, [], []⟩, ""⟩ seg) := rfl

theorem captureRequestDataNet_ops (r : Request) (seg : Segment) :
    (captureRequestDataNet r seg).ops = seg.ops ++
      [.Lock, .Write "HTTP.Request.Method", .Write "HTTP.Request.URL",
        .Write "HTTP.Request.XForwardedFor", .Write "HTTP.Request.ClientIP",
        .Write "HTTP.Request.UserAgent", .Unlock] := by
  simp [captureRequestDataNet, Segment.op, Segment.Lock, Segment.Unlock]

theorem Segment.op_ops (seg : Segment) (o : SegOp) : (seg.op o).ops = seg.ops ++ [o] := rfl

theorem Segment.op_HTTPResponse (seg : Segment) (o : SegOp) :
    (seg.op o).HTTPResponse = seg.HTTPResponse := rfl

theorem count_close_append (l l' : List SegOp) (h : SegOp.Close ∉ l') :
    (l ++ l').count .Close = l.count .Close := by
  rw [List.count_append, List.count_eq_zero_of_not_mem h, Nat.add_zero]

theorem closeCount_Close (seg : Segment) : seg.Close.closeCount = seg.closeCount + 1 := by
  simp [Segment.closeCount, Segment.Close, Segment.op, List.count_append]

/-! ## The outbound round-tripper -/

theorem RoundTrip_nil (R : Request → Option Response × Option String) (seg : Segment)
    (req : Request) (e : Option String) (h : R req = (none, e)) :
    RoundTrip R seg req =
      .panicked "invalid memory address or nil pointer dereference"
        (captureRequestDataNet req (seg.op (.Read "TraceID")))
        [LogCall.mk "info" [.text "Sending request to ", .text req.URL]] := by
  unfold RoundTrip
  rw [h]
  rfl

theorem RoundTrip_some (R : Request → Option Response × Option String) (seg : Segment)
    (req : Request) (res : Response) (e : Option String) (h : R req = (some res, e)) :
    RoundTrip R seg req =
      .returned (some res) e
        (captureResponseData ⟨⟨res.StatusCode, res.ContentLength, [], []⟩, ""⟩
          (captureRequestDataNet req (seg.op (.Read "TraceID")))).Close
        ([LogCall.mk "info" [.text "Sending request to ", .text req.URL]] ++
          [match e with
            | some err => LogCall.mk "error" [.text "Error: ", .text err]
            | none => LogCall.mk "error" [.text "Received response ", .text res.Status]]) := by
  unfold RoundTrip
  rw [h]
  cases e <;> rfl

/-- When the inner round-tripper returns a response, `RoundTrip` returns the
response and the error it got, unmodified, and closes the segment once, as
the last operation on it. -/
theorem RoundTrip_response (R : Request → Option Response × Option String) (seg : Segment)
    (req : Request) (res : Response) (e : Option String) (h : R req = (some res, e)) :
    ∃ seg' log, RoundTrip R seg req = .returned (some res) e seg' log ∧
      seg'.closeCount = seg.closeCount + 1 ∧ seg'.ops.getLast? = some .Close := by
  refine ⟨_, _, RoundTrip_some R seg req res e h, ?_, ?_⟩
  · rw [closeCount_Close]
    obtain ⟨l, hl, hc⟩ := captureResponseData_ops
      ⟨⟨res.StatusCode, res.ContentLength, [], []⟩, ""⟩
      (captureRequestDataNet req (seg.op (.Read "TraceID")))
    rw [Segment.closeCount, hl, count_close_append _ _ hc, count_close_append _ _ (by simp),
      count_close_append _ _ (by simp), captureRequestDataNet_ops,
      count_close_append _ _ (by simp)]
    simp only [Segment.op]
    rw [count_close_append _ _ (by simp)]
    rfl
  · simp [Segment.Close, Segment.op]

/-- C9 (the code at the failing input): when the inner round-tripper fails
with an error and no response, `RoundTrip` panics on the nil response before
the deferred `Close` is registered: nothing is returned to the caller and the
segment has not been closed. -/
theorem C9_roundTrip_error_panics (R : Request → Option Response × Option String)
    (seg : Segment) (req : Request) (err : String) (h : R req = (none, some err)) :
    ∃ seg' log,
      RoundTrip R seg req =
        .panicked "invalid memory address or nil pointer dereference" seg' log ∧
      seg'.closeCount = seg.closeCount ∧
      (∀ res e s l, RoundTrip R seg req ≠ .returned res e s l) := by
  refine ⟨_, _, RoundTrip_nil R seg req _ h, ?_, ?_⟩
  · rw [Segment.closeCount, captureRequestDataNet_ops, count_close_append _ _ (by simp)]
    simp only [Segment.op]
    rw [count_close_append _ _ (by simp)]
    rfl
  · intro res e s l
    rw [RoundTrip_nil R seg req _ h]
    exact fun hc => by cases hc

theorem C9_roundTrip_error_panics_witness :
    ∃ seg' log,
      RoundTrip (fun _ => (none, some "connection refused")) (freshSegment "abc")
          ⟨"GET", "http://svc/", "svc", "", []⟩ =
        .panicked "invalid memory address or nil pointer dereference" seg' log ∧
      seg'.closeCount = (freshSegment "abc").closeCount ∧
      (∀ res e s l, RoundTrip (fun _ => (none, some "connection refused")) (freshSegment "abc")
          ⟨"GET", "http://svc/", "svc", "", []⟩ ≠ .returned res e s l) :=
  C9_roundTrip_error_panics (fun _ => (none, some "connection refused")) (freshSegment "abc")
    ⟨"GET", "http://svc/", "svc", "", []⟩ "connection refused" rfl

/-! ## The inbound middleware -/

theorem createTraceHeader_ops (env : Env) (r : Request) :
    ∃ l, SegOp.Close ∉ l ∧ ∀ seg, (createTraceHeader env r seg).2.ops = seg.ops ++ l := by
  refine ⟨(if (parseHeaders env r.Header).get "Root" != ""
      then [.Write "TraceID", .Write "RequestWasTraced"] else []) ++
    (if (parseHeaders env r.Header).get "Parent" != "" then [.Write "ParentID"] else []) ++
    [.Read "TraceID", .Write "Sampled"] ++
    (if (parseHeaders env r.Header).get "Sampled" == "?" then [.Read "Sampled"] else []),
    ?_, fun seg => ?_⟩
  · split_ifs <;> simp
  · simp only [createTraceHeader, Segment.op]
    split_ifs <;> simp

theorem captureRequestData_ops (env : Env) (c : GinContext) (seg : Segment) :
    ∃ l, (captureRequestData env c seg).2.ops = seg.ops ++ l ∧ SegOp.Close ∉ l := by
  obtain ⟨l, hc, hl⟩ := createTraceHeader_ops env c.Request
  refine ⟨[.Lock, .Write "HTTP.Request.Method", .Write "HTTP.Request.URL",
    .Write "HTTP.Request.XForwardedFor", .Write "HTTP.Request.ClientIP",
    .Write "HTTP.Request.UserAgent"] ++ l ++ [.Unlock], ?_, ?_⟩
  · simp only [captureRequestData, Segment.op, Segment.Lock, Segment.Unlock, hl]
    simp
  · simp [hc]

theorem AddMetadata_fst (seg : Segment) (key value : String) (fails : Bool) :
    (seg.AddMetadata key value fails).1.ops = seg.ops ++ [.AddMetadata key value] ∧
    (seg.AddMetadata key value fails).1.HTTPResponse = seg.HTTPResponse ∧
    ((seg.AddMetadata key value fails).2.isSome = fails) ∧
    (fails = false → (key, value) ∈ (seg.AddMetadata key value fails).1.Metadata) := by
  cases fails <;> simp [Segment.AddMetadata, Segment.op]

/-- The handler, step by step, from the segment the tracing client hands out. -/
theorem XRayMiddleware_eq (env : Env) (sn : Option (String → String))
    (NewSegmentFromHeader : String → Request → String → Segment)
    (next : GinContext → GinContext) (addFails : Bool) (r : Request) (cw : GinResponseWriter)
    (seg0 : Segment)
    (h0 : seg0 = NewSegmentFromHeader
      (match sn with
        | some namer => namer r.Host
        | none => env "XRAY_NAME") r (r.Header.Get (env "XRAY_TRACE"))) :
    (XRayMiddleware env sn NewSegmentFromHeader next addFails r cw).c =
      next (captureRequestData env ⟨r, ⟨cw, ""⟩⟩ (seg0.op (.Read "TraceID"))).1 ∧
    (XRayMiddleware env sn NewSegmentFromHeader next addFails r cw).seg =
      ((((((((captureResponseData
        (XRayMiddleware env sn NewSegmentFromHeader next addFails r cw).c.Writer
        (captureRequestData env ⟨r, ⟨cw, ""⟩⟩ (seg0.op (.Read "TraceID"))).2).AddMetadata
        "response"
        (XRayMiddleware env sn NewSegmentFromHeader next addFails r cw).c.Writer.body
        addFails).1.op (.Read "TraceID")).op (.Read "Name")).op (.Read "StartTime")).op
        (.Read "EndTime")).op (.Read "Metadata")).Close) := by
  subst h0
  constructor <;> rfl

/-- The operations of the handler on the segment, in order. -/
theorem XRayMiddleware_ops (env : Env) (sn : Option (String → String))
    (NewSegmentFromHeader : String → Request → String → Segment)
    (next : GinContext → GinContext) (addFails : Bool) (r : Request) (cw : GinResponseWriter)
    (seg0 : Segment)
    (h0 : seg0 = NewSegmentFromHeader
      (match sn with
        | some namer => namer r.Host
        | none => env "XRAY_NAME") r (r.Header.Get (env "XRAY_TRACE"))) :
    ∃ a b,
      (XRayMiddleware env sn NewSegmentFromHeader next addFails r cw).seg.ops =
        seg0.ops ++ a ++ [.Write "HTTP.Response.Status"] ++ b ++
        [.AddMetadata "response"
          (XRayMiddleware env sn NewSegmentFromHeader next addFails r cw).c.Writer.body] ++
        [.Read "TraceID", .Read "Name", .Read "StartTime", .Read "EndTime", .Read "Metadata"] ++
        [.Close] ∧
      SegOp.Close ∉ a ∧ SegOp.Close ∉ b := by
  obtain ⟨-, hs⟩ := XRayMiddleware_eq env sn NewSegmentFromHeader next addFails r cw seg0 h0
  obtain ⟨l1, h1, c1⟩ := captureRequestData_ops env ⟨r, ⟨cw, ""⟩⟩ (seg0.op (.Read "TraceID"))
  obtain ⟨l2, h2, c2⟩ := captureResponseData_ops
    (XRayMiddleware env sn NewSegmentFromHeader next addFails r cw).c.Writer
    (captureRequestData env ⟨r, ⟨cw, ""⟩⟩ (seg0.op (.Read "TraceID"))).2
  refine ⟨[.Read "TraceID"] ++ l1 ++ [.Lock], l2, ?_, ?_, c2⟩
  · rw [hs]
    simp only [Segment.Close, Segment.op_ops, (AddMetadata_fst _ _ _ _).1, h2, h1]
    simp
  · simp [c1]

/-- C10: for a request whose downstream stage returns, the handler's
operations on the segment end with exactly one `Close`, which comes after the
response status has been written and after the captured body has been
attached under the key `response`; the recorded status is the writer's; and
this is so whether the attachment succeeds or fails: a failure adds one
error log call and changes neither the response nor the operations on the
segment. -/
theorem C10_middleware_closes_once (env : Env) (sn : Option (String → String))
    (NewSegmentFromHeader : String → Request → String → Segment)
    (next : GinContext → GinContext) (addFails : Bool) (r : Request) (cw : GinResponseWriter) :
    (∃ a b c,
      (XRayMiddleware env sn NewSegmentFromHeader next addFails r cw).seg.ops =
        (NewSegmentFromHeader
          (match sn with
            | some namer => namer r.Host
            | none => env "XRAY_NAME") r (r.Header.Get (env "XRAY_TRACE"))).ops ++ a ++
        [.Write "HTTP.Response.Status"] ++ b ++
        [.AddMetadata "response"
          (XRayMiddleware env sn NewSegmentFromHeader next addFails r cw).c.Writer.body] ++ c ++
        [.Close] ∧
      SegOp.Close ∉ a ∧ SegOp.Close ∉ b ∧ SegOp.Close ∉ c) ∧
    (XRayMiddleware env sn NewSegmentFromHeader next addFails r cw).seg.closeCount =
      (NewSegmentFromHeader
        (match sn with
          | some namer => namer r.Host
          | none => env "XRAY_NAME") r (r.Header.Get (env "XRAY_TRACE"))).closeCount + 1 ∧
    (XRayMiddleware env sn NewSegmentFromHeader next addFails r cw).seg.HTTPResponse.Status =
      (XRayMiddleware env sn NewSegmentFromHeader next addFails r cw).c.Writer.ResponseWriter.status ∧
    (XRayMiddleware env sn NewSegmentFromHeader next true r cw).c =
      (XRayMiddleware env sn NewSegmentFromHeader next false r cw).c ∧
    (XRayMiddleware env sn NewSegmentFromHeader next true r cw).seg.ops =
      (XRayMiddleware env sn NewSegmentFromHeader next false r cw).seg.ops ∧
    LogCall.mk "error" [.text "Error adding metadata to segment"] ∈
      (XRayMiddleware env sn NewSegmentFromHeader next true r cw).log ∧
    LogCall.mk "error" [.text "Error adding metadata to segment"] ∉
      (XRayMiddleware env sn NewSegmentFromHeader next false r cw).log := by
  obtain ⟨a, b, h, ha, hb⟩ :=
    XRayMiddleware_ops env sn NewSegmentFromHeader next addFails r cw _ rfl
  obtain ⟨-, hs⟩ := XRayMiddleware_eq env sn NewSegmentFromHeader next addFails r cw _ rfl
  obtain ⟨-, hs1⟩ := XRayMiddleware_eq env sn NewSegmentFromHeader next true r cw _ rfl
  obtain ⟨-, hs2⟩ := XRayMiddleware_eq env sn NewSegmentFromHeader next false r cw _ rfl
  refine ⟨⟨a, b, _, h, ha, hb, by simp⟩, ?_, ?_, rfl, ?_, ?_, ?_⟩
  · rw [Segment.closeCount, h, List.count_append, count_close_append _ _ (by simp),
      count_close_append _ _ (by simp), count_close_append _ _ hb,
      count_close_append _ _ (by simp), count_close_append _ _ ha]
    rfl
  · rw [hs]
    simp only [Segment.Close, Segment.op_HTTPResponse, (AddMetadata_fst _ _ _ _).2.1]
    exact (captureResponseData_flags _ _).2.2.2
  · rw [hs1, hs2]
    simp only [Segment.Close, Segment.op_ops, (AddMetadata_fst _ _ _ _).1]
    rfl
  · simp [XRayMiddleware, Segment.AddMetadata]
  · simp [XRayMiddleware, Segment.AddMetadata]

/-! ## The line as a whole -/

theorem elapsed_text_ne_empty (x : String) : (" [" ++ x ++ " ms]" != "") = true := by
  have h : (" [" ++ x ++ " ms]").length ≠ ("" : String).length := by
    simp only [String.length_append]
    have : (" [" : String).length = 2 := by decide
    have : ("" : String).length = 0 := by decide
    omega
  have hne : " [" ++ x ++ " ms]" ≠ "" := fun he => h (congrArg String.length he)
  simpa using hne

/-- The line `Format` returns for a record with a call site, distinct field
names and a start time that, when present, is an `int64`: the buffer's
content, the head, then the trace-id, bracketed-id, message and elapsed-time
parts, and a newline; the error is nil. -/
theorem Format_line (rt : Runtime) (f : LogFormat) (entry : Entry) (caller : Frame)
    (hc : entry.Caller = some caller)
    (hk : (entry.Data.map Prod.fst).Nodup)
    (hs : startTimeIsInt64 entry.Data = true) :
    Format rt f entry =
      .ok (bufferText entry ++ lineHead rt f entry caller ++ traceSegment entry.Data ++
        idSegment entry.Data ++ messageSegment entry.Message ++
        elapsedSegment rt.nowMilli entry.Data ++ "\n", none) := by
  have e0 : (("" : String) != "") = false := by decide
  have hbne : ∀ s : String, (s != "") = !decide (s = "") := by
    intro s; by_cases h : s = "" <;> simp [h]
  simp only [Format, hc, formatFields_nodup rt.nowMilli entry.Data hk, sliceFrom_lastIndex,
    bufferText, lineHead, traceSegment, idSegment, messageSegment, elapsedSegment]
  cases hl : List.lookup "STARTTIME" entry.Data with
  | none =>
    simp only [e0, Bool.false_eq_true, if_false]
    by_cases h1 : fieldText entry.Data "TRACEID" "" = "" <;>
    by_cases h2 : fieldText entry.Data "EMAILREQ" "" = "" <;>
    by_cases h3 : fieldText entry.Data "MITRAREQ" "" = "" <;>
    by_cases h4 : entry.Message = "" <;>
    simp only [hbne, h1, h2, h3, h4, decide_True, decide_False, Bool.not_true, Bool.not_false,
      Bool.false_eq_true, if_false, if_true, String.append_assoc, String.append_empty,
      String.empty_append]
  | some v =>
    obtain ⟨start, rfl⟩ : ∃ start, v = .int64 start := by
      cases v <;> simp [startTimeIsInt64, hl] at hs ⊢
    simp only [elapsed_text_ne_empty, if_true]
    by_cases h1 : fieldText entry.Data "TRACEID" "" = "" <;>
    by_cases h2 : fieldText entry.Data "EMAILREQ" "" = "" <;>
    by_cases h3 : fieldText entry.Data "MITRAREQ" "" = "" <;>
    by_cases h4 : entry.Message = "" <;>
    simp only [hbne, h1, h2, h3, h4, decide_True, decide_False, Bool.not_true, Bool.not_false,
      Bool.false_eq_true, if_false, if_true, String.append_assoc, String.append_empty,
      String.empty_append]

theorem fieldText_absent (data : List (String × Value)) (key : String)
    (h : data.lookup key = none) : fieldText data key "" = "" := by
  simp [fieldText, h]

theorem fieldText_present (data : List (String × Value)) (key : String) (v : Value)
    (h : data.lookup key = some v) : fieldText data key "" = Sprint v := by
  simp [fieldText, h]

/-- C11, as stated, fails: a record whose start-time field holds a value that
is not an `int64` (here a plain `int`), and a record without a call site, make
`Format` panic instead of returning a line. -/
theorem C11_format_total_counterexample :
    Format exampleRuntime exampleFormat
        (exampleEntry [("STARTTIME", .other "1700000000000")] "hello") =
      .panic "interface conversion: interface is not int64" ∧
    Format exampleRuntime exampleFormat ⟨none, none, 0, 4, [], "hello"⟩ =
      .panic "invalid memory address or nil pointer dereference" := by
  decide

/-- C11, amended: for every record with a call site whose start time, when
present, is an `int64`, `Format` returns a line and no error; the line ends
with a newline and is made of the head and of the trace-id, bracketed-id,
message and elapsed-time parts, where an absent trace id, email-request id,
start time or message gives the empty part and an absent partner id leaves
the email-request id alone between the brackets. -/
theorem C11_format_total_well_typed (rt : Runtime) (f : LogFormat) (entry : Entry)
    (caller : Frame)
    (hc : entry.Caller = some caller)
    (hk : (entry.Data.map Prod.fst).Nodup)
    (hs : startTimeIsInt64 entry.Data = true) :
    ∃ line, Format rt f entry = .ok (line, none) ∧
      "\n".data <:+ line.data ∧
      line = bufferText entry ++ lineHead rt f entry caller ++ traceSegment entry.Data ++
        idSegment entry.Data ++ messageSegment entry.Message ++
        elapsedSegment rt.nowMilli entry.Data ++ "\n" ∧
      (entry.Data.lookup "TRACEID" = none → traceSegment entry.Data = "") ∧
      (entry.Data.lookup "EMAILREQ" = none → idSegment entry.Data = "") ∧
      (entry.Data.lookup "MITRAREQ" = none →
        idSegment entry.Data =
          if fieldText entry.Data "EMAILREQ" "" = "" then ""
          else "[" ++ fieldText entry.Data "EMAILREQ" "" ++ "] ") ∧
      (entry.Data.lookup "STARTTIME" = none → elapsedSegment rt.nowMilli entry.Data = "") ∧
      (entry.Message = "" → messageSegment entry.Message = "") := by
  refine ⟨_, Format_line rt f entry caller hc hk hs, ?_, rfl, ?_, ?_, ?_, ?_, ?_⟩
  · rw [String.data_append]
    exact List.suffix_append _ _
  · intro h; simp [traceSegment, fieldText_absent _ _ h]
  · intro h; simp [idSegment, fieldText_absent _ _ h]
  · intro h; simp [idSegment, fieldText_absent _ _ h]
  · intro h; simp [elapsedSegment, h]
  · intro h; simp [messageSegment, h]

theorem C11_format_total_well_typed_witness :
    ∃ line, Format exampleRuntime exampleFormat (exampleEntry [] "") = .ok (line, none) ∧
      "\n".data <:+ line.data :=
  (C11_format_total_well_typed exampleRuntime exampleFormat (exampleEntry [] "")
    ⟨"/src/app/main.go", 42⟩ rfl (by decide) (by decide)).imp
    fun _ h => ⟨h.1, h.2.1⟩

/-- C12: in the line `Format` produces, the bracketed-id part is
`[<emailReq>] ` when a non-empty email-request id is present and no partner
id is, `[<emailReq>|<mitraReq>] ` when both are present and non-empty, and
missing altogether when there is no email-request id, whether or not a
partner id is present. -/
theorem C12_bracketed_id (rt : Runtime) (f : LogFormat) (entry : Entry) (caller : Frame)
    (hc : entry.Caller = some caller)
    (hk : (entry.Data.map Prod.fst).Nodup)
    (hs : startTimeIsInt64 entry.Data = true) :
    (∀ ve, entry.Data.lookup "EMAILREQ" = some ve → Sprint ve ≠ "" →
      entry.Data.lookup "MITRAREQ" = none →
      Format rt f entry =
        .ok (bufferText entry ++ lineHead rt f entry caller ++ traceSegment entry.Data ++
          ("[" ++ Sprint ve ++ "] ") ++ messageSegment entry.Message ++
          elapsedSegment rt.nowMilli entry.Data ++ "\n", none)) ∧
    (∀ ve vm, entry.Data.lookup "EMAILREQ" = some ve → Sprint ve ≠ "" →
      entry.Data.lookup "MITRAREQ" = some vm → Sprint vm ≠ "" →
      Format rt f entry =
        .ok (bufferText entry ++ lineHead rt f entry caller ++ traceSegment entry.Data ++
          ("[" ++ Sprint ve ++ "|" ++ Sprint vm ++ "] ") ++ messageSegment entry.Message ++
          elapsedSegment rt.nowMilli entry.Data ++ "\n", none)) ∧
    (entry.Data.lookup "EMAILREQ" = none →
      Format rt f entry =
        .ok (bufferText entry ++ lineHead rt f entry caller ++ traceSegment entry.Data ++
          messageSegment entry.Message ++ elapsedSegment rt.nowMilli entry.Data ++ "\n", none)) := by
  have hline := Format_line rt f entry caller hc hk hs
  refine ⟨fun ve he hne hm => ?_, fun ve vm he hne hm hmne => ?_, fun he => ?_⟩
  · have hid : idSegment entry.Data = "[" ++ Sprint ve ++ "] " := by
      simp only [idSegment, fieldText_present _ _ _ he, fieldText_absent _ _ hm, hne, if_false,
        if_true]
    rw [hline, hid]
  · have hid : idSegment entry.Data = "[" ++ Sprint ve ++ "|" ++ Sprint vm ++ "] " := by
      simp only [idSegment, fieldText_present _ _ _ he, fieldText_present _ _ _ hm, hne, hmne,
        if_false]
    rw [hline, hid]
  · have hid : idSegment entry.Data = "" := by
      simp only [idSegment, fieldText_absent _ _ he, if_true]
    rw [hline, hid, String.append_empty]

theorem C12_bracketed_id_witness :
    Format exampleRuntime exampleFormat
        (exampleEntry [("MITRAREQ", .str "m1")] "hello") =
      .ok (bufferText (exampleEntry [("MITRAREQ", .str "m1")] "hello") ++
        lineHead exampleRuntime exampleFormat (exampleEntry [("MITRAREQ", .str "m1")] "hello")
          ⟨"/src/app/main.go", 42⟩ ++
        traceSegment [("MITRAREQ", .str "m1")] ++ messageSegment "hello" ++
        elapsedSegment 5000 [("MITRAREQ", .str "m1")] ++ "\n", none) :=
  (C12_bracketed_id exampleRuntime exampleFormat (exampleEntry [("MITRAREQ", .str "m1")] "hello")
    ⟨"/src/app/main.go", 42⟩ rfl (by decide) (by decide)).2.2 (by decide)

/-! ## Fields the formatter does not look at -/

theorem lookup_eq_some_iff_mem (data : List (String × Value)) (k : String) (v : Value)
    (h : (data.map Prod.fst).Nodup) : data.lookup k = some v ↔ (k, v) ∈ data := by
  induction data with
  | nil => simp
  | cons p rest ih =>
    obtain ⟨a, b⟩ := p
    rw [List.map_cons, List.nodup_cons] at h
    by_cases hka : k = a
    · subst hka
      have hnot : (k, v) ∉ rest := fun hm => h.1 (List.mem_map.2 ⟨(k, v), hm, rfl⟩)
      simp [List.lookup, hnot, eq_comm]
    · have hb : (k == a) = false := by simpa using hka
      simp [List.lookup, hb, hka, ih h.2]

theorem lookup_perm (d1 d2 : List (String × Value)) (k : String) (hp : d1.Perm d2)
    (h : (d1.map Prod.fst).Nodup) : d1.lookup k = d2.lookup k := by
  have h2 : (d2.map Prod.fst).Nodup := (hp.map Prod.fst).nodup_iff.1 h
  apply Option.ext
  intro v
  rw [Option.mem_def, Option.mem_def, lookup_eq_some_iff_mem d1 k v h,
    lookup_eq_some_iff_mem d2 k v h2]
  exact hp.mem_iff

/-- The line depends on the field map only through the four recognised
fields. -/
theorem Format_congr_data (rt : Runtime) (f : LogFormat) (entry : Entry)
    (data : List (String × Value))
    (h1 : (entry.Data.map Prod.fst).Nodup) (h2 : (data.map Prod.fst).Nodup)
    (hsame : ∀ k ∈ recognisedFields, data.lookup k = entry.Data.lookup k) :
    Format rt f { entry with Data := data } = Format rt f entry := by
  have e1 := hsame "TRACEID" (by decide)
  have e2 := hsame "EMAILREQ" (by decide)
  have e3 := hsame "MITRAREQ" (by decide)
  have e4 := hsame "STARTTIME" (by decide)
  simp only [Format, formatFields_nodup rt.nowMilli _ h1, formatFields_nodup rt.nowMilli _ h2,
    fieldText, e1, e2, e3, e4]

/-- C13: with the same clock reading and environment, the result of `Format`
does not change when the field map is replaced by one that agrees with it on
TRACEID, EMAILREQ, MITRAREQ and STARTTIME (fields of other names added,
removed or changed), in particular when one more field of another name is
added, nor when the fields are visited in another order. -/
theorem C13_unrecognised_fields_ignored (rt : Runtime) (f : LogFormat) (entry : Entry)
    (data : List (String × Value))
    (h1 : (entry.Data.map Prod.fst).Nodup) :
    ((data.map Prod.fst).Nodup →
      (∀ k ∈ recognisedFields, data.lookup k = entry.Data.lookup k) →
      Format rt f { entry with Data := data } = Format rt f entry) ∧
    (∀ key value, key ∉ recognisedFields → key ∉ entry.Data.map Prod.fst →
      Format rt f { entry with Data := (key, value) :: entry.Data } = Format rt f entry) ∧
    (data.Perm entry.Data → Format rt f { entry with Data := data } = Format rt f entry) := by
  refine ⟨fun h2 hsame => Format_congr_data rt f entry data h1 h2 hsame,
    fun key value hkey hnew => ?_, fun hp => ?_⟩
  · refine Format_congr_data rt f entry _ h1 ?_ ?_
    · rw [List.map_cons, List.nodup_cons]
      exact ⟨hnew, h1⟩
    · intro k hk
      have hne : (k == key) = false := by
        have : k ≠ key := fun he => hkey (he ▸ hk)
        simpa using this
      simp [List.lookup, hne]
  · have h2 : (data.map Prod.fst).Nodup := (hp.map Prod.fst).nodup_iff.2 h1
    exact Format_congr_data rt f entry data h1 h2
      (fun k _ => lookup_perm data entry.Data k hp h2)

theorem C13_unrecognised_fields_ignored_witness :
    Format exampleRuntime exampleFormat
        { exampleEntry [("TRACEID", .str "t1"), ("EMAILREQ", .str "e1")] "hello" with
          Data := [("USER", .str "u"), ("EMAILREQ", .str "e1"), ("TRACEID", .str "t1")] } =
      Format exampleRuntime exampleFormat
        (exampleEntry [("TRACEID", .str "t1"), ("EMAILREQ", .str "e1")] "hello") :=
  (C13_unrecognised_fields_ignored exampleRuntime exampleFormat
    (exampleEntry [("TRACEID", .str "t1"), ("EMAILREQ", .str "e1")] "hello")
    [("USER", .str "u"), ("EMAILREQ", .str "e1"), ("TRACEID", .str "t1")] (by decide)).1
    (by decide) (by decide)

/-! ## Elapsed time -/

theorem wrapInt64_of_range (x : Int) (h0 : 0 ≤ x) (h1 : x < 2 ^ 63) : wrapInt64 x = x := by
  unfold wrapInt64
  have h : (x + 2 ^ 63) % 2 ^ 64 = x + 2 ^ 63 := Int.emod_eq_of_lt (by omega) (by omega)
  omega

/-- C14, as stated, fails: with a start time of -2^63 milliseconds and the
clock at 5000 the difference does not fit an `int64`; the text between the
brackets is the wrapped, negative number. -/
theorem C14_elapsed_counterexample :
    (-9223372036854775808 : Int) ≤ exampleRuntime.nowMilli ∧
    Format exampleRuntime exampleFormat
        (exampleEntry [("STARTTIME", .int64 (-9223372036854775808))] "hello") =
      .ok ("01/02/2024 10:00:00,000 INFO main.go:42 app MSSG:hello" ++
        " [-9.223.372.036.854.770.808 ms]" ++ "\n", none) ∧
    printerSprintf (exampleRuntime.nowMilli - (-9223372036854775808)) =
      "9.223.372.036.854.780.808" := by
  decide

/-- C14, amended: for a record with a call site whose start time is the
`int64` `s`, formatted when the clock reads `now ≥ s` with `now - s` below
2^63 (so that the difference fits an `int64`, as it does for every `s ≥ 0`),
the line ends with ` [<n> ms]` and a newline, `<n>` being the non-negative
`now - s` as the Indonesian printer renders it; with no start-time field the
line ends right after the message part. -/
theorem C14_elapsed_suffix (rt : Runtime) (f : LogFormat) (entry : Entry) (caller : Frame)
    (hc : entry.Caller = some caller)
    (hk : (entry.Data.map Prod.fst).Nodup) :
    (∀ s, entry.Data.lookup "STARTTIME" = some (.int64 s) → s ≤ rt.nowMilli →
      rt.nowMilli - s < 2 ^ 63 →
      0 ≤ rt.nowMilli - s ∧
      Format rt f entry =
        .ok (bufferText entry ++ lineHead rt f entry caller ++ traceSegment entry.Data ++
          idSegment entry.Data ++ messageSegment entry.Message ++
          (" [" ++ printerSprintf (rt.nowMilli - s) ++ " ms]") ++ "\n", none) ∧
      (∃ line, Format rt f entry = .ok (line, none) ∧
        (" [" ++ printerSprintf (rt.nowMilli - s) ++ " ms]" ++ "\n").data <:+ line.data)) ∧
    (entry.Data.lookup "STARTTIME" = none →
      Format rt f entry =
        .ok (bufferText entry ++ lineHead rt f entry caller ++ traceSegment entry.Data ++
          idSegment entry.Data ++ messageSegment entry.Message ++ "\n", none)) := by
  constructor
  · intro s hs hle hlt
    have h0 : 0 ≤ rt.nowMilli - s := by omega
    have hst : startTimeIsInt64 entry.Data = true := by simp [startTimeIsInt64, hs]
    have hel : elapsedSegment rt.nowMilli entry.Data =
        " [" ++ printerSprintf (rt.nowMilli - s) ++ " ms]" := by
      simp only [elapsedSegment, hs, wrapInt64_of_range _ h0 hlt]
    have hline := Format_line rt f entry caller hc hk hst
    rw [hel] at hline
    refine ⟨h0, hline, _, hline, ?_⟩
    refine ⟨(bufferText entry ++ lineHead rt f entry caller ++ traceSegment entry.Data ++
      idSegment entry.Data ++ messageSegment entry.Message).data, ?_⟩
    simp only [String.data_append, List.append_assoc]
  · intro hs
    have hst : startTimeIsInt64 entry.Data = true := by simp [startTimeIsInt64, hs]
    have hel : elapsedSegment rt.nowMilli entry.Data = "" := by
      simp only [elapsedSegment, hs]
    rw [Format_line rt f entry caller hc hk hst, hel, String.append_empty]

theorem C14_elapsed_suffix_witness :
    (0 : Int) ≤ exampleRuntime.nowMilli - (-1229567) ∧
    Format exampleRuntime exampleFormat
        (exampleEntry [("STARTTIME", .int64 (-1229567))] "hello") =
      .ok ("01/02/2024 10:00:00,000 INFO main.go:42 app MSSG:hello [1.234.567 ms]\n", none) :=
  have h := (C14_elapsed_suffix exampleRuntime exampleFormat
    (exampleEntry [("STARTTIME", .int64 (-1229567))] "hello") ⟨"/src/app/main.go", 42⟩ rfl
    (by decide)).1 (-1229567) (by decide) (by decide) (by decide)
  ⟨h.1, h.2.1.trans (by decide)⟩

/-! ## The capturing writer -/

/-- C15: for every sequence of slices written through `responseBodyWriter`,
the embedded writer ends in the state, and every call returns the count and
error, that writing the same slices in the same order to the embedded writer
itself gives; the capture buffer afterwards holds what it held before
followed by the concatenation of all the slices; an embedded writer that
records the slices it is handed has recorded exactly these slices, in
order. -/
theorem C15_write_forwarding
    (inner : GinResponseWriter → String → GinResponseWriter × Int × Option String)
    (r : responseBodyWriter) (bs : List String) :
    (writeAll inner r bs).1.ResponseWriter = (innerWriteAll inner r.ResponseWriter bs).1 ∧
    (writeAll inner r bs).2 = (innerWriteAll inner r.ResponseWriter bs).2 ∧
    (writeAll inner r bs).1.body = r.body ++ concatSlices bs ∧
    (∀ b, (responseBodyWriter.Write inner r b).2 = (inner r.ResponseWriter b).2 ∧
      (responseBodyWriter.Write inner r b).1.ResponseWriter = (inner r.ResponseWriter b).1 ∧
      (responseBodyWriter.Write inner r b).1.body = r.body ++ b) ∧
    (writeAll recordingWriter r bs).1.ResponseWriter.written = r.ResponseWriter.written ++ bs := by
  refine ⟨?_, ?_, ?_, fun b => ⟨rfl, rfl, rfl⟩, ?_⟩
  · induction bs generalizing r with
    | nil => rfl
    | cons b bs ih => simp only [writeAll, innerWriteAll]; exact ih _
  · induction bs generalizing r with
    | nil => rfl
    | cons b bs ih =>
      simp only [writeAll, innerWriteAll, List.cons.injEq, true_and]
      exact ⟨rfl, ih _⟩
  · induction bs generalizing r with
    | nil => simp [writeAll, concatSlices]
    | cons b bs ih =>
      simp only [writeAll, concatSlices]
      rw [ih, ← String.append_assoc]
      rfl
  · induction bs generalizing r with
    | nil => simp [writeAll]
    | cons b bs ih =>
      simp only [writeAll]
      rw [ih]
      simp [responseBodyWriter.Write, recordingWriter]

/-! ## Flags are only ever raised -/

theorem captureRequestDataNet_flagsKept (r : Request) (seg : Segment) :
    (captureRequestDataNet r seg).Error = seg.Error ∧
    (captureRequestDataNet r seg).Throttle = seg.Throttle ∧
    (captureRequestDataNet r seg).Fault = seg.Fault := by
  simp [captureRequestDataNet, Segment.op, Segment.Lock, Segment.Unlock]

theorem Segment.op_flags (seg : Segment) (o : SegOp) :
    (seg.op o).Error = seg.Error ∧ (seg.op o).Throttle = seg.Throttle ∧
    (seg.op o).Fault = seg.Fault :=
  ⟨rfl, rfl, rfl⟩

/-- The flags of the segment a round trip with a response hands back. -/
theorem RoundTrip_flags (R : Request → Option Response × Option String) (seg : Segment)
    (req : Request) (c : Response) (e : Option String) (hR : R req = (some c, e)) :
    ∃ seg' log, RoundTrip R seg req = .returned (some c) e seg' log ∧
      seg'.Error = (seg.Error || decide (400 ≤ c.StatusCode ∧ c.StatusCode < 500)) ∧
      seg'.Throttle = (seg.Throttle || decide (c.StatusCode = 429)) ∧
      seg'.Fault = (seg.Fault || decide (500 ≤ c.StatusCode ∧ c.StatusCode < 600)) := by
  obtain ⟨k1, k2, k3, -⟩ := captureResponseData_flags
    ⟨⟨c.StatusCode, c.ContentLength, [], []⟩, ""⟩
    (captureRequestDataNet req (seg.op (.Read "TraceID")))
  obtain ⟨n1, n2, n3⟩ := captureRequestDataNet_flagsKept req (seg.op (.Read "TraceID"))
  obtain ⟨o1, o2, o3⟩ := Segment.op_flags seg (.Read "TraceID")
  refine ⟨_, _, RoundTrip_some R seg req c e hR, ?_, ?_, ?_⟩
  · rw [Segment.Close, (Segment.op_flags _ _).1, k1, n1, o1]
  · rw [Segment.Close, (Segment.op_flags _ _).2.1, k2, n2, o2]
  · rw [Segment.Close, (Segment.op_flags _ _).2.2, k3, n3, o3]

/-- C16: `captureResponseData` and `captureResponseDataNet` never clear a
flag: an error, throttle or fault flag that is true before the call is true
after it, whatever the status; a later call with a 2xx status leaves all
three flags as the earlier call left them; and a round trip through
`LoggingRoundTripper` that obtains a response hands back the shared segment
with every flag that was raised still raised. -/
theorem C16_flags_only_set (w w2 : responseBodyWriter) (c : Response) (seg : Segment) :
    ((seg.Error = true → (captureResponseData w seg).Error = true) ∧
      (seg.Throttle = true → (captureResponseData w seg).Throttle = true) ∧
      (seg.Fault = true → (captureResponseData w seg).Fault = true)) ∧
    (∃ seg', captureResponseDataNet (some c) seg = .ok seg' ∧
      (seg.Error = true → seg'.Error = true) ∧
      (seg.Throttle = true → seg'.Throttle = true) ∧
      (seg.Fault = true → seg'.Fault = true)) ∧
    (200 ≤ w2.ResponseWriter.status → w2.ResponseWriter.status ≤ 299 →
      (captureResponseData w2 (captureResponseData w seg)).Error =
        (captureResponseData w seg).Error ∧
      (captureResponseData w2 (captureResponseData w seg)).Throttle =
        (captureResponseData w seg).Throttle ∧
      (captureResponseData w2 (captureResponseData w seg)).Fault =
        (captureResponseData w seg).Fault) ∧
    (∀ (R : Request → Option Response × Option String) (req : Request) (e : Option String),
      R req = (some c, e) →
      ∃ seg' log, RoundTrip R seg req = .returned (some c) e seg' log ∧
        (seg.Error = true → seg'.Error = true) ∧
        (seg.Throttle = true → seg'.Throttle = true) ∧
        (seg.Fault = true → seg'.Fault = true)) := by
  obtain ⟨h1, h2, h3, -⟩ := captureResponseData_flags w seg
  obtain ⟨seg', hs, g1, g2, g3, -⟩ := captureResponseDataNet_flags c seg
  refine ⟨⟨fun h => ?_, fun h => ?_, fun h => ?_⟩,
    ⟨seg', hs, fun h => ?_, fun h => ?_, fun h => ?_⟩, fun hlo hhi => ?_,
    fun R req e hR => ?_⟩
  · rw [h1, h]; rfl
  · rw [h2, h]; rfl
  · rw [h3, h]; rfl
  · rw [g1, h]; rfl
  · rw [g2, h]; rfl
  · rw [g3, h]; rfl
  · obtain ⟨k1, k2, k3, -⟩ := captureResponseData_flags w2 (captureResponseData w seg)
    have d1 : decide (400 ≤ w2.ResponseWriter.status ∧ w2.ResponseWriter.status < 500) = false :=
      decide_eq_false (by omega)
    have d2 : decide (w2.ResponseWriter.status = 429) = false := decide_eq_false (by omega)
    have d3 : decide (500 ≤ w2.ResponseWriter.status ∧ w2.ResponseWriter.status < 600) = false :=
      decide_eq_false (by omega)
    rw [k1, k2, k3, d1, d2, d3]
    simp
  · obtain ⟨seg2, log, hrt, r1, r2, r3⟩ := RoundTrip_flags R seg req c e hR
    refine ⟨seg2, log, hrt, fun h => ?_, fun h => ?_, fun h => ?_⟩
    · rw [r1, h]; rfl
    · rw [r2, h]; rfl
    · rw [r3, h]; rfl

theorem C16_flags_only_set_witness :
    (captureResponseData ⟨⟨200, 0, [], []⟩, ""⟩
      (captureResponseData ⟨⟨429, 0, [], []⟩, ""⟩ (freshSegment "abc"))).Error = true ∧
    (captureResponseData ⟨⟨200, 0, [], []⟩, ""⟩
      (captureResponseData ⟨⟨429, 0, [], []⟩, ""⟩ (freshSegment "abc"))).Throttle = true :=
  have h := (C16_flags_only_set ⟨⟨429, 0, [], []⟩, ""⟩ ⟨⟨200, 0, [], []⟩, ""⟩
    ⟨"200 OK", 200, 0⟩ (freshSegment "abc")).2.2.1 (by decide) (by decide)
  ⟨h.1.trans (by decide), h.2.1.trans (by decide)⟩

/-! ## The sampling decision -/

theorem createTraceHeader_parentID (env : Env) (r : Request) (seg : Segment) :
    (createTraceHeader env r seg).2.ParentID =
      if (parseHeaders env r.Header).get "Parent" = "" then seg.ParentID
      else (parseHeaders env r.Header).get "Parent" := by
  simp only [createTraceHeader, Segment.op]
  by_cases h1 : (parseHeaders env r.Header).get "Root" = "" <;>
    by_cases h2 : (parseHeaders env r.Header).get "Parent" = "" <;>
    by_cases h3 : (parseHeaders env r.Header).get "Sampled" = "?" <;>
    simp [h1, h2, h3]

theorem parseHeaders_get_of_empty (env : Env) (h : Header)
    (hv : h.Get (env "XRAY_TRACE") = "") (k : String) : (parseHeaders env h).get k = "" := by
  have he : (parseHeaders env h).entries = [("", "")] := by
    simp only [parseHeaders, hv]
    decide
  simp only [StrMap.get, StrMap.find?, he, List.lookup]
  cases k == "" <;> rfl

/-- C17: after `createTraceHeader` the segment's sampled flag is false if and
only if the inbound Sampled value is exactly `0`, whatever the flag was
before: an absent value, `1` and `?` all give true, and so does a missing
trace header; the parent id is unchanged when the inbound Parent value is
empty and the trace id is unchanged when the inbound Root value is empty. -/
theorem C17_sampled_from_header (env : Env) (r : Request) (seg : Segment) :
    ((createTraceHeader env r seg).2.Sampled = false ↔
      (parseHeaders env r.Header).get "Sampled" = "0") ∧
    ((parseHeaders env r.Header).get "Sampled" = "" ∨
      (parseHeaders env r.Header).get "Sampled" = "1" ∨
      (parseHeaders env r.Header).get "Sampled" = "?" →
      (createTraceHeader env r seg).2.Sampled = true) ∧
    (r.Header.Get (env "XRAY_TRACE") = "" →
      (createTraceHeader env r seg).2.Sampled = true ∧
      (createTraceHeader env r seg).2.TraceID = seg.TraceID ∧
      (createTraceHeader env r seg).2.ParentID = seg.ParentID) ∧
    ((parseHeaders env r.Header).get "Parent" = "" →
      (createTraceHeader env r seg).2.ParentID = seg.ParentID) ∧
    ((parseHeaders env r.Header).get "Root" = "" →
      (createTraceHeader env r seg).2.TraceID = seg.TraceID) := by
  have hs := createTraceHeader_sampled env r seg
  have ht := createTraceHeader_traceID env r seg
  have hp := createTraceHeader_parentID env r seg
  refine ⟨?_, fun h => ?_, fun h => ⟨?_, ?_, ?_⟩, fun h => ?_, fun h => ?_⟩
  · rw [hs]
    simp
  · rw [hs]
    rcases h with h | h | h <;> rw [h] <;> decide
  · rw [hs, parseHeaders_get_of_empty env r.Header h]
    decide
  · rw [ht, if_pos (parseHeaders_get_of_empty env r.Header h "Root")]
  · rw [hp, if_pos (parseHeaders_get_of_empty env r.Header h "Parent")]
  · rw [hp, if_pos h]
  · rw [ht, if_pos h]

theorem C17_sampled_from_header_witness :
    (createTraceHeader exampleEnv ⟨"GET", "/", "h", "10.0.0.1:1234", []⟩
      { freshSegment "abc" with Sampled := false, ParentID := "p0" }).2.Sampled = true ∧
    (createTraceHeader exampleEnv ⟨"GET", "/", "h", "10.0.0.1:1234", []⟩
      { freshSegment "abc" with Sampled := false, ParentID := "p0" }).2.TraceID = "abc" ∧
    (createTraceHeader exampleEnv ⟨"GET", "/", "h", "10.0.0.1:1234", []⟩
      { freshSegment "abc" with Sampled := false, ParentID := "p0" }).2.ParentID = "p0" :=
  (C17_sampled_from_header exampleEnv ⟨"GET", "/", "h", "10.0.0.1:1234", []⟩
    { freshSegment "abc" with Sampled := false, ParentID := "p0" }).2.2.1 (by decide)

end MidGo
